import Mathlib

/-!
Verification development for the YTPGenerator core: the effect catalog
(`effects.py`), the fragment compiler and command builder
(`ffmpeg_worker.py`), and the process runner (`utils.py`).

Filter-graph fragments are modelled as token lists: a token is either a
literal piece of text or a local placeholder `{jv}`/`{ja}`.  The Python
source stores a fragment as a single string and rewrites placeholders with
`str.replace`; on the catalog's fragments (whose placeholder indices are
single digits and whose literal text contains no brace) the sequential
`replace` calls coincide with per-token substitution, which is what
`resolveFrag` implements.  `renderFrag` recovers the exact source string of
a fragment, tying each modelled fragment to the string literal in the code.

External effects (the filesystem, the random generator, the spawned child
process) are modelled as explicit oracle parameters, so every theorem
quantifies over all their possible behaviours.
-/

/-- One token of a filter fragment: literal text, or a local placeholder
`{jv}` (when `video` is true) / `{ja}` (when `video` is false). -/
inductive FTok where
  | lit (s : String)
  | ph (j : Nat) (video : Bool)
deriving DecidableEq, Repr

/-- A filter fragment, e.g. `"{0v}{1v}overlay=10:10[vout]"`, as a token list. -/
abbrev Frag := List FTok

/-- The dictionary returned by `build_effect_command_for`:
`{"inputs": [...], "filters": [...]}`. -/
structure EffCmd where
  inputs : List String
  filters : List Frag
deriving DecidableEq, Repr

/-- Source rendering of a token: a placeholder renders as the text
`{jv}` or `{ja}` that appears in `effects.py`. -/
def renderTok : FTok → String
  | .lit s => s
  | .ph j video => "\x7b" ++ toString j ++ (if video then "v\x7d" else "a\x7d")

/-- Source rendering of a fragment: concatenation of its tokens. -/
def renderFrag : Frag → String
  | [] => ""
  | t :: ts => renderTok t ++ renderFrag ts

/-- Placeholder resolution done by `FFmpegWorker._assemble_filter_complex`
on one token: `{0v}`/`{0a}` always become `[0:v]`/`[0:a]`; `{jv}`/`{ja}`
become `[start+j-1:v]`/`[start+j-1:a]` when `1 ≤ j ≤ num` (the fragment's
extra-input count), and are left untouched otherwise (the source's
replacement loop runs `j` over `range(1, num_local + 1)` only). -/
def resolveTok (start num : Nat) : FTok → String
  | .lit s => s
  | .ph j video =>
    if j = 0 then (if video then "[0:v]" else "[0:a]")
    else if j ≤ num then
      "[" ++ toString (start + j - 1) ++ (if video then ":v]" else ":a]")
    else
      "\x7b" ++ toString j ++ (if video then "v\x7d" else "a\x7d")

/-- Resolution of a whole fragment (concatenation of resolved tokens). -/
def resolveFrag (start num : Nat) : Frag → String
  | [] => ""
  | t :: ts => resolveTok start num t ++ resolveFrag start num ts

/-- Specification-level resolution: rewrites every placeholder with
`j ≥ 1`, with no range restriction. Agrees with `resolveFrag` exactly when
every placeholder index is within the fragment's extra-input count. -/
def resolveTokSpec (start : Nat) : FTok → String
  | .lit s => s
  | .ph j video =>
    if j = 0 then (if video then "[0:v]" else "[0:a]")
    else "[" ++ toString (start + j - 1) ++ (if video then ":v]" else ":a]")

/-- Specification-level resolution of a whole fragment. -/
def resolveFragSpec (start : Nat) : Frag → String
  | [] => ""
  | t :: ts => resolveTokSpec start t ++ resolveFragSpec start ts

/-- Python `"sep".join(l)`. -/
def joinSep (sep : String) : List String → String
  | [] => ""
  | [x] => x
  | x :: y :: ys => x ++ sep ++ joinSep sep (y :: ys)

/-- Python truthiness of an optional string (`None` and `""` are falsy). -/
def truthy : Option String → Bool
  | none => false
  | some s => !(s == "")

/-- Python `a or b` on optional strings: `a` when truthy, otherwise `b`. -/
def pyOr (a b : Option String) : Option String :=
  if truthy a then a else b

/-- Python `int()` on a rational: truncation toward zero. -/
def pyInt (q : ℚ) : ℤ :=
  if 0 ≤ q then ⌊q⌋ else ⌈q⌉

/-- Stand-in for Python's float-to-string formatting (e.g. in f-strings).
No claim depends on the exact rendering of a number, only on the
surrounding structure of the command. -/
def fmtQ (q : ℚ) : String := toString q

/-- Python `round(q, 3)`: rounding to three decimal places.  (Python uses
round-half-to-even on binary floats; the tie-breaking rule is irrelevant
to every bound proved below, which only uses `|round3 q - q| ≤ 1/2000`.) -/
def round3 (q : ℚ) : ℚ := (round (q * 1000) : ℤ) / 1000

/-- `random.choice` modelled through an arbitrary index oracle `pick`:
returns `none` exactly on the empty list and otherwise some element of
the list (`_choose_asset` in `effects.py`). -/
def chooseAsset (pick : List String → Nat) (l : List String) : Option String :=
  if h : l = [] then none
  else some (l.get ⟨pick l % l.length, Nat.mod_lt _ (List.length_pos.mpr h)⟩)

/-- The no-op fragment dictionary
`{"inputs": [], "filters": ["{0v}copy[vout]", "{0a}anull[aout]"]}`
returned by every builder branch that degrades gracefully. -/
def noopCmd : EffCmd :=
  ⟨[], [[.ph 0 true, .lit "copy[vout]"], [.ph 0 false, .lit "anull[aout]"]]⟩

theorem renderFrag_noop :
    noopCmd.filters.map renderFrag = ["\x7b0v\x7dcopy[vout]", "\x7b0a\x7danull[aout]"] := by
  decide

/-! ### Effect catalog (`EFFECTS_METADATA` in `effects.py`) -/

/-- One entry of `EFFECTS_METADATA`. -/
structure EffectMeta where
  key : String
  name : String
  default_level : ℚ
  max_level : ℚ
deriving DecidableEq, Repr

/-- `EFFECTS_METADATA`, in declaration order (which is the compilation
order of `_assemble_filter_complex`). -/
def effectsMetadata : List EffectMeta :=
  [⟨"random_sound", "Add Random Sound (legacy)", 1.0, 5.0⟩,
   ⟨"sounds", "Add Sound from Assets", 1.0, 5.0⟩,
   ⟨"reverse", "Reverse Clip (video & audio)", 1.0, 1.0⟩,
   ⟨"speed", "Speed Up / Slow Down", 1.0, 4.0⟩,
   ⟨"chorus", "Chorus Effect (aecho)", 0.6, 2.0⟩,
   ⟨"vibrato", "Vibrato / Pitch Bend (asetrate+atempo)", 1.0, 2.0⟩,
   ⟨"stutter", "Stutter Loop", 0.5, 3.0⟩,
   ⟨"earrape", "Earrape Mode (gain)", 6.0, 30.0⟩,
   ⟨"autotune", "Auto-Tune Chaos (placeholder)", 1.0, 1.0⟩,
   ⟨"dance_squid", "Dance & Squidward Mode", 1.0, 3.0⟩,
   ⟨"invert", "Invert Colors", 1.0, 1.0⟩,
   ⟨"rainbow", "Rainbow Overlay (user PNG/GIF)", 1.0, 1.0⟩,
   ⟨"mirror", "Mirror Mode", 1.0, 1.0⟩,
   ⟨"sus", "Sus Effect (random pitch/tempo)", 1.0, 3.0⟩,
   ⟨"explosion_spam", "Explosion Spam (repetitive overlays)", 2.0, 10.0⟩,
   ⟨"frame_shuffle", "Frame Shuffle (placeholder)", 1.0, 1.0⟩,
   ⟨"meme_injection", "Meme Injection (overlay image/audio)", 1.0, 3.0⟩,
   ⟨"meme_sounds", "Meme Sounds (assets)", 1.0, 3.0⟩,
   ⟨"memes", "Memes (images + sounds)", 1.0, 3.0⟩,
   ⟨"sentence_mix", "Sentence Mixing / Random Cuts", 1.0, 5.0⟩,
   ⟨"adverts", "Adverts (overlay ad video)", 1.0, 3.0⟩,
   ⟨"errors", "Error / Glitch Overlays", 1.0, 3.0⟩,
   ⟨"images", "Image Montage / Injection", 1.0, 5.0⟩,
   ⟨"overlay_videos", "Overlay Short Videos", 1.0, 5.0⟩]

/-! ### Speed-factor decomposition (the `atempo` chain of the speed branch) -/

/-- The `while t < 0.5: tempos.append(0.5); t /= 0.5` loop followed by
`tempos.append(round(t, 3))`.  The loop terminates for every positive `t`
(after clamping, `t ≥ 0.125`); `fuel` bounds the iteration count and is
never exhausted on the clamped domain. -/
def atempoLow : Nat → ℚ → List ℚ
  | 0, t => [round3 t]
  | n + 1, t => if t < 0.5 then 0.5 :: atempoLow n (t / 0.5) else [round3 t]

/-- The `while t > 2.0: tempos.append(2.0); t /= 2.0` loop followed by
`tempos.append(round(t, 3))`. -/
def atempoHigh : Nat → ℚ → List ℚ
  | 0, t => [round3 t]
  | n + 1, t => if t > 2.0 then 2.0 :: atempoHigh n (t / 2.0) else [round3 t]

/-- The `tempos` list built by the speed branch of
`build_effect_command_for` for the clamped factor. -/
def speedTempos (factor : ℚ) : List ℚ :=
  if factor < 0.5 then atempoLow 64 factor else atempoHigh 64 factor

/-! ### `build_effect_command_for` (`effects.py`) -/

/-- `build_effect_command_for(key, level, src_path, overlay_path, assets)`.
`pick` is the oracle behind `random.choice` (`_choose_asset`), and
`pathExists` the oracle behind `os.path.exists`.  `assets` models the
dictionary lookup `assets.get(name, [])`. -/
def buildEffectCommandFor (pick : List String → Nat) (pathExists : String → Bool)
    (key : String) (level : ℚ) (_srcPath : String) (overlayPath : Option String)
    (assets : String → List String) : EffCmd :=
  if key = "random_sound" then
    -- legacy: no external asset, just bump volume
    ⟨[], [[.ph 0 true, .lit "copy[vout]"],
          [.ph 0 false, .lit "volume=1.0[aout]"]]⟩
  else if key = "sounds" then
    match chooseAsset pick (assets "sounds") with
    | none => noopCmd
    | some chosen =>
      if chosen = "" then noopCmd
      else
        ⟨[chosen],
         [[.ph 0 true, .lit "copy[vout]"],
          [.ph 0 false, .lit "[maina]; ", .ph 1 false,
           .lit "[in1]; [maina][in1]amix=inputs=2:duration=first:dropout_transition=2[aout]"]]⟩
  else if key = "reverse" then
    ⟨[], [[.ph 0 true, .lit "reverse[vrev]"],
          [.ph 0 false, .lit "areverse[arev]"],
          [.lit "[vrev]setpts=PTS-STARTPTS[vout]"],
          [.lit "[arev]asetpts=PTS-STARTPTS[aout]"]]⟩
  else if key = "speed" then
    let factor := max 0.125 (min 4.0 level)
    let pts := fmtQ (1 / factor) ++ "*PTS"
    let tempos := speedTempos factor
    let afilter := joinSep "," (tempos.map (fun x => "atempo=" ++ fmtQ x))
    ⟨[], [[.ph 0 true, .lit "setpts=", .lit pts, .lit "[vout]"],
          [.ph 0 false, .lit afilter, .lit "[aout]"]]⟩
  else if key = "chorus" then
    let delay := pyInt (20 + level * 60)
    let decay := max 0.1 (min 0.9 (0.2 + level * 0.2))
    let aecho := "aecho=0.8:0.9:" ++ toString delay ++ "|" ++ toString (delay * 2)
                  ++ ":" ++ fmtQ decay ++ "|" ++ fmtQ (decay * 0.6)
    ⟨[], [[.ph 0 true, .lit "copy[vout]"],
          [.ph 0 false, .lit aecho, .lit "[aout]"]]⟩
  else if key = "vibrato" then
    let pitch := max 0.5 (min 2.0 level)
    let atempoFactor := 1 / pitch
    let afilter := "asetrate=44100*" ++ fmtQ pitch ++ ",aresample=44100,atempo="
                    ++ fmtQ (max 0.5 (min 2.0 atempoFactor))
    ⟨[], [[.ph 0 true, .lit "copy[vout]"],
          [.ph 0 false, .lit afilter, .lit "[aout]"]]⟩
  else if key = "stutter" then
    let loopCount := max 2 (pyInt (level * 3))
    ⟨[], [[.ph 0 true, .lit "trim=0:0.15,setpts=PTS-STARTPTS[vst]"],
          [.lit "[vst]loop=", .lit (toString loopCount), .lit ":1:0[vstl]"],
          [.ph 0 false, .lit "atrim=0:0.15,asetpts=PTS-STARTPTS[ast]"],
          [.lit "[ast]aloop=loop=", .lit (toString loopCount), .lit ":size=2[astl]"],
          [.lit "[vstl]scale=iw:ih[vout]"],
          [.lit "[astl]anull[aout]"]]⟩
  else if key = "earrape" then
    let gain := max 2.0 (min 30.0 level)
    ⟨[], [[.ph 0 true, .lit "eq=contrast=1.1:saturation=1.4[vout]"],
          [.ph 0 false, .lit "volume=", .lit (fmtQ gain), .lit "[aout]"]]⟩
  else if key = "autotune" then
    ⟨[], [[.ph 0 true, .lit "copy[vout]"],
          [.ph 0 false, .lit "anull[aout]"]]⟩
  else if key = "dance_squid" then
    let zoom := 1.0 + 0.05 * level
    ⟨[], [[.ph 0 true, .lit "scale=iw*", .lit (fmtQ zoom), .lit ":ih*", .lit (fmtQ zoom),
           .lit ",transpose=1,transpose=2,format=yuv420p[vout]"],
          [.ph 0 false, .lit "atempo=1.0[aout]"]]⟩
  else if key = "invert" then
    ⟨[], [[.ph 0 true, .lit "negate[vout]"],
          [.ph 0 false, .lit "anull[aout]"]]⟩
  else if key = "rainbow" then
    -- use overlay_path if provided (and existing), otherwise try assets.images
    let fallback :=
      match chooseAsset pick (assets "images") with
      | none => noopCmd
      | some chosen =>
        if chosen = "" then noopCmd
        else ⟨[chosen], [[.ph 0 true, .ph 1 true, .lit "overlay=10:10:shortest=1[vout]"],
                         [.ph 0 false, .lit "anull[aout]"]]⟩
    match overlayPath with
    | some p =>
      if p ≠ "" ∧ pathExists p = true then
        ⟨[p], [[.ph 0 true, .ph 1 true, .lit "overlay=10:10:shortest=1[vout]"],
               [.ph 0 false, .lit "anull[aout]"]]⟩
      else fallback
    | none => fallback
  else if key = "mirror" then
    ⟨[], [[.ph 0 true, .lit "hflip[vout]"],
          [.ph 0 false, .lit "anull[aout]"]]⟩
  else if key = "sus" then
    ⟨[], [[.ph 0 true, .lit "copy[vout]"],
          [.ph 0 false, .lit "anull[aout]"]]⟩
  else if key = "explosion_spam" then
    match pyOr (chooseAsset pick (assets "images")) overlayPath with
    | none => noopCmd
    | some chosen =>
      if chosen = "" then noopCmd
      else
        ⟨[chosen],
         [[.ph 0 true, .ph 1 true, .lit "overlay=enable='between(t,0,0.6)':x=10:y=10[vtmp]"],
          [.lit "[vtmp]copy[vout]"],
          [.ph 0 false, .lit "anull[aout]"]]⟩
  else if key = "frame_shuffle" then
    ⟨[], [[.ph 0 true, .lit "tblend=all_mode='addition',framestep=1[vout]"],
          [.ph 0 false, .lit "anull[aout]"]]⟩
  else if key = "meme_injection" then
    let chosenImg := pyOr (chooseAsset pick (assets "memes")) overlayPath
    let chosenSnd := chooseAsset pick (assets "meme_sounds")
    let step1 : List String × List Frag :=
      if truthy chosenImg then
        ([chosenImg.getD ""], [[.ph 0 true, .ph 1 true, .lit "overlay=W-w-10:H-h-10[vtmp]"]])
      else
        ([], [[.ph 0 true, .lit "copy[vtmp]"]])
    if truthy chosenSnd then
      -- note (source comment): "We'll produce a mixing command referencing
      -- {1a} or {2a} as appropriate in worker" — the emitted text is always {1a}
      ⟨step1.1 ++ [chosenSnd.getD ""],
       step1.2 ++ [[.ph 0 false, .lit "[maina]; ", .ph 1 false,
                    .lit "[sfx]; [maina][sfx]amix=inputs=2:duration=first[aout]"],
                   [.lit "[vtmp]copy[vout]"]]⟩
    else
      ⟨step1.1, step1.2 ++ [[.ph 0 false, .lit "anull[aout]"],
                            [.lit "[vtmp]copy[vout]"]]⟩
  else if key = "meme_sounds" then
    match chooseAsset pick (assets "meme_sounds") with
    | none => noopCmd
    | some chosen =>
      if chosen = "" then noopCmd
      else
        ⟨[chosen],
         [[.ph 0 true, .lit "copy[vout]"],
          [.ph 0 false, .lit "[maina]; ", .ph 1 false,
           .lit "[sfx]; [maina][sfx]amix=inputs=2:duration=first[aout]"]]⟩
  else if key = "memes" then
    let chosenImg := chooseAsset pick (assets "memes")
    let chosenSnd := chooseAsset pick (assets "meme_sounds")
    let step1 : List String × List Frag :=
      if truthy chosenImg then
        ([chosenImg.getD ""], [[.ph 0 true, .ph 1 true, .lit "overlay=10:10:shortest=1[vtmp]"]])
      else
        ([], [[.ph 0 true, .lit "copy[vtmp]"]])
    let step2 : List String × List Frag :=
      if truthy chosenSnd then
        (step1.1 ++ [chosenSnd.getD ""],
         step1.2 ++ [[.ph 0 false, .lit "[m]; ", .ph 1 false,
                      .lit "[s]; [m][s]amix=inputs=2:duration=first[aout]"]])
      else
        (step1.1, step1.2 ++ [[.ph 0 false, .lit "anull[aout]"]])
    ⟨step2.1, step2.2 ++ [[.lit "[vtmp]copy[vout]"]]⟩
  else if key = "sentence_mix" then
    ⟨[], [[.ph 0 true, .lit "copy[vout]"], [.ph 0 false, .lit "anull[aout]"]]⟩
  else if key = "adverts" then
    match chooseAsset pick (assets "adverts") with
    | none => noopCmd
    | some chosen =>
      if chosen = "" then noopCmd
      else
        ⟨[chosen],
         [[.ph 0 true, .ph 1 true, .lit "overlay=enable='between(t,0,3)':x=W-w-10:y=10[vtmp]"],
          [.lit "[vtmp]copy[vout]"],
          [.ph 0 false, .lit "anull[aout]"]]⟩
  else if key = "errors" then
    match chooseAsset pick (assets "errors") with
    | none => noopCmd
    | some chosen =>
      if chosen = "" then noopCmd
      else
        ⟨[chosen],
         [[.ph 0 true, .ph 1 true, .lit "overlay=enable='gt(mod(t,0.8),0.0)':x=0:y=0[vtmp]"],
          [.lit "[vtmp]copy[vout]"],
          [.ph 0 false, .lit "anull[aout]"]]⟩
  else if key = "images" then
    match chooseAsset pick (assets "images") with
    | none => noopCmd
    | some chosen =>
      if chosen = "" then noopCmd
      else
        ⟨[chosen],
         [[.ph 0 true, .ph 1 true,
           .lit "overlay=enable='between(t,1,4)':x=main_w/4:y=main_h/4:alpha='if(lt(t,2),0,1)'[vtmp]"],
          [.lit "[vtmp]copy[vout]"],
          [.ph 0 false, .lit "anull[aout]"]]⟩
  else if key = "overlay_videos" then
    match chooseAsset pick (assets "overlays_videos") with
    | none => noopCmd
    | some chosen =>
      if chosen = "" then noopCmd
      else
        ⟨[chosen],
         [[.ph 0 true, .ph 1 true, .lit "overlay=10:10:shortest=1[vtmp]"],
          [.lit "[vtmp]copy[vout]"],
          [.ph 0 false, .lit "anull[aout]"]]⟩
  else
    -- default fallback: passthrough
    noopCmd

/-! ### Fragment compiler (`FFmpegWorker._assemble_filter_complex`) -/

/-- Loop state of `_assemble_filter_complex`: the accumulated
`extra_inputs`, the accumulated (already resolved) `filters`, and
`global_input_offset` (starting at 1, slot 0 being the main source). -/
structure AsmState where
  extraInputs : List String
  filters : List String
  offset : Nat
deriving DecidableEq, Repr

/-- One iteration of the compile loop for an effect command that passed
the enable/probability gates: record the starting slot, append the
command's inputs (advancing the offset once per input), and append its
placeholder-resolved fragments. -/
def asmStep (st : AsmState) (cmd : EffCmd) : AsmState :=
  ⟨st.extraInputs ++ cmd.inputs,
   st.filters ++ cmd.filters.map (resolveFrag st.offset cmd.inputs.length),
   st.offset + cmd.inputs.length⟩

/-- The compile loop over the gated effect commands. -/
def assembleCmds (cmds : List EffCmd) : AsmState :=
  cmds.foldl asmStep ⟨[], [], 1⟩

/-- One per-key entry of the caller's `chosen_effects` dictionary
(`{"enabled": ..., "probability": ..., "level": ...}` after the
`.get` defaults of the source). -/
structure EffectSel where
  enabled : Bool
  probability : ℚ
  level : Option ℚ
deriving DecidableEq, Repr

/-- The gate-and-build part of the loop body for one catalog entry:
`none` when the key is skipped (absent/disabled selection, or probability
gate failed), otherwise the built effect command.  `draw` is the oracle
behind the `random.random()` draw of the probability gate. -/
def gateBuild (pick : List String → Nat) (pathExists : String → Bool)
    (draw : String → ℚ) (srcPath : String) (overlayPath : Option String)
    (chosenEffects : String → Option EffectSel) (assets : String → List String)
    (meta : EffectMeta) : Option EffCmd :=
  match chosenEffects meta.key with
  | none => none
  | some cfg =>
    if cfg.enabled = false then none
    else if cfg.probability < 1 ∧ draw meta.key > cfg.probability then none
    else
      some (buildEffectCommandFor pick pathExists meta.key
              (cfg.level.getD meta.default_level) srcPath overlayPath assets)

/-- The effect commands that survive the gates, in catalog order. -/
def selectedCmds (pick : List String → Nat) (pathExists : String → Bool)
    (draw : String → ℚ) (srcPath : String) (overlayPath : Option String)
    (chosenEffects : String → Option EffectSel) (assets : String → List String) :
    List EffCmd :=
  effectsMetadata.filterMap (gateBuild pick pathExists draw srcPath overlayPath chosenEffects assets)

/-- `FFmpegWorker._assemble_filter_complex`: returns the extra-input list
and the joined `filter_complex` string; if no fragments were accumulated
the global no-op pair is substituted first. -/
def assembleFilterComplex (pick : List String → Nat) (pathExists : String → Bool)
    (draw : String → ℚ) (srcPath : String) (overlayPath : Option String)
    (chosenEffects : String → Option EffectSel) (assets : String → List String) :
    List String × String :=
  let st := effectsMetadata.foldl
    (fun st meta =>
      match gateBuild pick pathExists draw srcPath overlayPath chosenEffects assets meta with
      | none => st
      | some cmd => asmStep st cmd)
    ⟨[], [], 1⟩
  let filters := if st.filters = [] then ["[0:v]copy[vout]", "[0:a]anull[aout]"] else st.filters
  (st.extraInputs, joinSep "; " filters)

/-! ### Command builder (`generate_preview` / `generate`) -/

/-- The argument vector built by `FFmpegWorker.generate_preview` (the part
between the preflight checks and `run_subprocess`). -/
def previewCmdVector (ffmpeg srcPath : String) (duration : ℤ)
    (extraInputs : List String) (filterComplex outPath : String) : List String :=
  let cmd := [ffmpeg, "-y", "-ss", "0", "-t", toString duration, "-i", srcPath]
  let cmd := extraInputs.foldl (fun c inp => c ++ ["-i", inp]) cmd
  let cmd := if filterComplex ≠ "" then
      cmd ++ ["-filter_complex", filterComplex, "-map", "[vout]", "-map", "[aout]"]
    else cmd
  cmd ++ ["-c:v", "libx264", "-preset", "veryfast", "-crf", "28", "-c:a", "aac",
          "-shortest", outPath]

/-- The argument vector built by `FFmpegWorker.generate`. -/
def generateCmdVector (ffmpeg srcPath : String)
    (extraInputs : List String) (filterComplex outPath : String) : List String :=
  let cmd := [ffmpeg, "-y", "-i", srcPath]
  let cmd := extraInputs.foldl (fun c inp => c ++ ["-i", inp]) cmd
  let cmd := if filterComplex ≠ "" then
      cmd ++ ["-filter_complex", filterComplex, "-map", "[vout]", "-map", "[aout]"]
    else cmd
  cmd ++ ["-c:v", "libx264", "-preset", "fast", "-crf", "20", "-c:a", "aac",
          "-b:a", "192k", outPath]

/-! ### Preflight file checks (`FFmpegWorker._verify_files_exist`) -/

/-- The `missing` list built by `_verify_files_exist`: the source path
first (labelled `"source"`), then each extra input in order (labelled
`"extra"`); a path is missing when it is falsy (empty) or not a regular
file (`isFile` is the oracle behind `os.path.isfile`). -/
def missingFiles (isFile : String → Bool) (srcPath : String)
    (extraInputs : List String) : List (String × String) :=
  let m0 : List (String × String) :=
    if srcPath = "" ∨ isFile srcPath = false then [("source", srcPath)] else []
  extraInputs.foldl
    (fun m p => if p = "" ∨ isFile p = false then m ++ [("extra", p)] else m) m0

/-- `FFmpegWorker.generate_preview` up to the spawn of the child process:
either the missing-input failure (carrying the labelled missing paths, in
which case no process is ever spawned) or the argument vector handed to
`run_subprocess`. -/
def generatePreview (pick : List String → Nat) (pathExists isFile : String → Bool)
    (draw : String → ℚ) (ffmpeg srcPath : String) (overlayPath : Option String)
    (duration : ℤ) (chosenEffects : String → Option EffectSel)
    (assets : String → List String) (outPath : String) :
    Except (List (String × String)) (List String) :=
  let r := assembleFilterComplex pick pathExists draw srcPath overlayPath chosenEffects assets
  let missing := missingFiles isFile srcPath r.1
  if missing = [] then
    .ok (previewCmdVector ffmpeg srcPath duration r.1 r.2 outPath)
  else
    .error missing

/-- `FFmpegWorker.generate` up to the spawn of the child process. -/
def generateRun (pick : List String → Nat) (pathExists isFile : String → Bool)
    (draw : String → ℚ) (ffmpeg srcPath : String) (overlayPath : Option String)
    (chosenEffects : String → Option EffectSel)
    (assets : String → List String) (outPath : String) :
    Except (List (String × String)) (List String) :=
  let r := assembleFilterComplex pick pathExists draw srcPath overlayPath chosenEffects assets
  let missing := missingFiles isFile srcPath r.1
  if missing = [] then
    .ok (generateCmdVector ffmpeg srcPath r.1 r.2 outPath)
  else
    .error missing

/-! ### Process runner (`utils.py`) -/

/-- `_normalize_return_code` on an integer status: unsigned 32-bit values
at or above `2^31` are reinterpreted as negative signed values. -/
def normalizeReturnCode (rc : ℤ) : ℤ :=
  if rc ≥ 2 ^ 31 then rc - 2 ^ 32 else rc

/-- A structured failure of `run_subprocess`. -/
inductive RunErr where
  | streamInterrupted (e : String)
  | exitedNonzero (raw normalized : ℤ)
deriving DecidableEq, Repr

/-- What the reader observes from the child's combined output stream: a
line, or an exception raised by the reading loop. -/
inductive StreamEvent where
  | line (s : String)
  | fail (e : String)
deriving DecidableEq, Repr

/-- Externally visible actions of `run_subprocess` after the spawn. -/
inductive RunAction where
  | log (s : String)
  | kill
  | wait
deriving DecidableEq, Repr

/-- The streaming loop of `run_subprocess`: forwards each non-empty line
to the sink; on a reader exception, kills the child (inside the
`except` handler) and re-raises. -/
def streamOutput : List StreamEvent → List RunAction × Option String
  | [] => ([], none)
  | .line s :: rest =>
    let r := streamOutput rest
    ((if s ≠ "" then [RunAction.log s] else []) ++ r.1, r.2)
  | .fail e :: _ => ([RunAction.kill], some e)

/-- `run_subprocess` after a successful spawn, as an action trace plus
outcome: stream the output (a reader failure kills the child and
propagates), then wait for the exit status and normalize it; a nonzero
raw status raises `exitedNonzero` carrying both values. -/
def runProcessTrace (events : List StreamEvent) (rc : ℤ) :
    List RunAction × Except RunErr Unit :=
  match streamOutput events with
  | (acts, some e) => (acts, .error (.streamInterrupted e))
  | (acts, none) =>
    (acts ++ [RunAction.wait],
     if rc ≠ 0 then .error (.exitedNonzero rc (normalizeReturnCode rc)) else .ok ())

/-! ### Specification-level views used by the theorems -/

/-- Declarative slot numbering: effect `k`'s fragment starts at global
slot `1 + (number of extra inputs of effects before k)`. -/
def startSlot (cmds : List EffCmd) (k : Nat) : Nat :=
  1 + ((cmds.take k).map (fun c => c.inputs.length)).sum

/-- Declarative form of the compiled filter list: each command's
fragments resolved at its start slot, every placeholder `j ≥ 1`
rewritten (no range restriction). -/
def specFilters (s : Nat) : List EffCmd → List String
  | [] => []
  | c :: rest =>
    c.filters.map (resolveFragSpec s) ++ specFilters (s + c.inputs.length) rest

/-- Declarative form of the compiled filter list with the code's
range-restricted resolver (`resolveFrag`); the loop of
`_assemble_filter_complex` computes exactly this. -/
def specFiltersCode (s : Nat) : List EffCmd → List String
  | [] => []
  | c :: rest =>
    c.filters.map (resolveFrag s c.inputs.length) ++ specFiltersCode (s + c.inputs.length) rest

/-- The token's placeholder index (if any) is at most `n`. -/
def tokBounded (n : Nat) : FTok → Bool
  | .lit _ => true
  | .ph j _ => j ≤ n

/-- Every placeholder index of the command's fragments is within its own
extra-input count (true of every fragment `build_effect_command_for`
emits). -/
def phBounded (c : EffCmd) : Bool :=
  c.filters.all (fun f => f.all (tokBounded c.inputs.length))

/-- A fragment whose head token resolves to a non-empty string: a
placeholder, or a non-empty literal. -/
def headOk : Frag → Bool
  | [] => false
  | .lit s :: _ => !(s == "")
  | .ph _ _ :: _ => true

/-! ### Theorems -/

theorem round3_abs_le (q : ℚ) : |round3 q - q| ≤ 1 / 2000 := by
  have h := abs_sub_round (q * 1000)
  have e : round3 q - q = -((q * 1000 - (round (q * 1000) : ℤ)) / 1000) := by
    unfold round3; ring
  rw [e, abs_neg, abs_div]
  rw [show |(1000 : ℚ)| = 1000 by norm_num]
  linarith [h]

theorem round_le_round {a b : ℚ} (h : a ≤ b) : round a ≤ round b := by
  rw [round_eq, round_eq]
  exact Int.floor_le_floor (by linarith)

theorem round3_bounds {lo hi : ℤ} {q : ℚ} (h1 : (lo : ℚ) ≤ q * 1000)
    (h2 : q * 1000 ≤ (hi : ℚ)) :
    (lo : ℚ) / 1000 ≤ round3 q ∧ round3 q ≤ (hi : ℚ) / 1000 := by
  have hl : lo ≤ round (q * 1000) := by
    have := round_le_round h1; rwa [round_intCast] at this
  have hh : round (q * 1000) ≤ hi := by
    have := round_le_round h2; rwa [round_intCast] at this
  unfold round3
  constructor
  · apply div_le_div_of_nonneg_right ?_ (by norm_num)
    exact_mod_cast hl
  · apply div_le_div_of_nonneg_right ?_ (by norm_num)
    exact_mod_cast hh

theorem atempoLow_stop (n : Nat) (t : ℚ) (h : ¬ t < 0.5) :
    atempoLow n t = [round3 t] := by
  cases n with
  | zero => rfl
  | succ m => rw [atempoLow, if_neg h]

theorem atempoLow_step (n : Nat) (t : ℚ) (h : t < 0.5) :
    atempoLow (n + 1) t = 0.5 :: atempoLow n (t / 0.5) := by
  rw [atempoLow, if_pos h]

theorem atempoHigh_stop (n : Nat) (t : ℚ) (h : ¬ t > 2.0) :
    atempoHigh n t = [round3 t] := by
  cases n with
  | zero => rfl
  | succ m => rw [atempoHigh, if_neg h]

theorem atempoHigh_step (n : Nat) (t : ℚ) (h : t > 2.0) :
    atempoHigh (n + 1) t = 2.0 :: atempoHigh n (t / 2.0) := by
  rw [atempoHigh, if_pos h]

/-- C3: for every requested speed factor `f` in `[0.125, 4.0]` (the level
after the speed branch's clamping), the emitted `atempo` chain consists of
sub-factors in `[0.5, 2.0]` whose product equals `f` to within `1/1000`. -/
theorem speed_tempos_sound (f : ℚ) (h1 : 0.125 ≤ f) (h2 : f ≤ 4) :
    (∀ x ∈ speedTempos f, 0.5 ≤ x ∧ x ≤ 2) ∧
    |(speedTempos f).prod - f| ≤ 1 / 1000 := by
  unfold speedTempos
  by_cases hA : f < 0.5
  · rw [if_pos hA]
    by_cases hB : f < 0.25
    · -- two halving steps, then round3 (4 * f) with 4 * f ∈ [1/2, 1)
      rw [show (64 : Nat) = 63 + 1 from rfl, atempoLow_step 63 f hA]
      have ht1 : f / 0.5 < 0.5 := by
        rw [show (0.5 : ℚ) = 1 / 2 by norm_num] at *; linarith
      rw [show (63 : Nat) = 62 + 1 from rfl, atempoLow_step 62 _ ht1]
      have ht2 : ¬ f / 0.5 / 0.5 < 0.5 := by
        rw [show (0.5 : ℚ) = 1 / 2 by norm_num] at *; intro hcon; linarith
      rw [atempoLow_stop 62 _ ht2]
      have he : f / 0.5 / 0.5 = 4 * f := by norm_num; ring
      rw [he]
      have hb := @round3_bounds 500 1000 (4 * f)
        (by push_cast; linarith) (by push_cast; linarith)
      have habs := round3_abs_le (4 * f)
      constructor
      · intro x hx
        simp only [List.mem_cons, List.not_mem_nil, or_false] at hx
        rcases hx with rfl | rfl | rfl
        · norm_num
        · norm_num
        · constructor
          · have := hb.1; norm_num at this ⊢; linarith
          · have := hb.2; norm_num at this ⊢; linarith
      · simp only [List.prod_cons, List.prod_nil]
        have e : (0.5 : ℚ) * (0.5 * (round3 (4 * f) * 1)) - f
            = (round3 (4 * f) - 4 * f) / 4 := by norm_num; ring
        rw [e, abs_div, show |(4 : ℚ)| = 4 by norm_num]
        linarith [habs]
    · -- one halving step, then round3 (2 * f) with 2 * f ∈ [1/2, 1)
      rw [show (64 : Nat) = 63 + 1 from rfl, atempoLow_step 63 f hA]
      have ht1 : ¬ f / 0.5 < 0.5 := by
        rw [show (0.5 : ℚ) = 1 / 2 by norm_num] at *
        intro hcon; push_neg at hB; nlinarith
      rw [atempoLow_stop 63 _ ht1]
      have he : f / 0.5 = 2 * f := by norm_num; ring
      rw [he]
      push_neg at hB
      have hb := @round3_bounds 500 1000 (2 * f)
        (by push_cast; nlinarith) (by push_cast; nlinarith)
      have habs := round3_abs_le (2 * f)
      constructor
      · intro x hx
        simp only [List.mem_cons, List.not_mem_nil, or_false] at hx
        rcases hx with rfl | rfl
        · norm_num
        · constructor
          · have := hb.1; norm_num at this ⊢; linarith
          · have := hb.2; norm_num at this ⊢; linarith
      · simp only [List.prod_cons, List.prod_nil]
        have e : (0.5 : ℚ) * (round3 (2 * f) * 1) - f
            = (round3 (2 * f) - 2 * f) / 2 := by norm_num; ring
        rw [e, abs_div, show |(2 : ℚ)| = 2 by norm_num]
        linarith [habs]
  · rw [if_neg hA]
    push_neg at hA
    by_cases hC : f > 2.0
    · -- one doubling step, then round3 (f / 2) with f / 2 ∈ (1, 2]
      rw [show (64 : Nat) = 63 + 1 from rfl, atempoHigh_step 63 f hC]
      have ht1 : ¬ f / 2.0 > 2.0 := by
        rw [show (2.0 : ℚ) = 2 by norm_num] at *; intro hcon; linarith
      rw [atempoHigh_stop 63 _ ht1]
      have he : f / 2.0 = f / 2 := by norm_num
      rw [he]
      have hC2 : (2 : ℚ) < f := by
        rw [show (2.0 : ℚ) = 2 by norm_num] at hC; exact hC
      have hb := @round3_bounds 1000 2000 (f / 2)
        (by push_cast; linarith) (by push_cast; linarith)
      have habs := round3_abs_le (f / 2)
      constructor
      · intro x hx
        simp only [List.mem_cons, List.not_mem_nil, or_false] at hx
        rcases hx with rfl | rfl
        · norm_num
        · constructor
          · have := hb.1; norm_num at this ⊢; linarith
          · have := hb.2; norm_num at this ⊢; linarith
      · simp only [List.prod_cons, List.prod_nil]
        have e : (2.0 : ℚ) * (round3 (f / 2) * 1) - f
            = 2 * (round3 (f / 2) - f / 2) := by norm_num; ring
        rw [e, abs_mul, show |(2 : ℚ)| = 2 by norm_num]
        linarith [habs]
    · -- no step: [round3 f] with f ∈ [1/2, 2]
      rw [atempoHigh_stop 64 f hC]
      push_neg at hC
      have hA2 : (1 : ℚ) / 2 ≤ f := by
        rw [show (0.5 : ℚ) = 1 / 2 by norm_num] at hA; linarith
      have hC2 : f ≤ 2 := by
        rw [show (2.0 : ℚ) = 2 by norm_num] at hC; linarith
      have hb := @round3_bounds 500 2000 f
        (by push_cast; linarith) (by push_cast; linarith)
      have habs := round3_abs_le f
      constructor
      · intro x hx
        simp only [List.mem_cons, List.not_mem_nil, or_false] at hx
        rcases hx with rfl
        constructor
        · have := hb.1; norm_num at this ⊢; linarith
        · have := hb.2; norm_num at this ⊢; linarith
      · simp only [List.prod_cons, List.prod_nil]
        have e : round3 f * 1 - f = round3 f - f := by ring
        rw [e]
        linarith [habs]

/-- Witness for `speed_tempos_sound` at the concrete factor 3. -/
theorem speed_tempos_sound_witness :
    ((0.125 : ℚ) ≤ 3 ∧ (3 : ℚ) ≤ 4) ∧
    ((∀ x ∈ speedTempos 3, (0.5 : ℚ) ≤ x ∧ x ≤ 2) ∧
     |(speedTempos 3).prod - 3| ≤ 1 / 1000) :=
  ⟨⟨by norm_num, by norm_num⟩, speed_tempos_sound 3 (by norm_num) (by norm_num)⟩

/-- C4: the runner normalizes raw statuses `≥ 2^31` to the corresponding
negative 32-bit value; raw 0 is success, and any nonzero raw status raises
a process-exited-nonzero failure carrying both the raw and normalized
values. -/
theorem exit_status_normalization (rc : ℤ) (events : List StreamEvent)
    (hstream : (streamOutput events).2 = none) :
    (rc ≥ 2 ^ 31 → normalizeReturnCode rc = rc - 2 ^ 32) ∧
    (rc < 2 ^ 31 → normalizeReturnCode rc = rc) ∧
    (rc = 0 → (runProcessTrace events rc).2 = Except.ok ()) ∧
    (rc ≠ 0 → (runProcessTrace events rc).2 =
      Except.error (RunErr.exitedNonzero rc (normalizeReturnCode rc))) := by
  have hrun : (runProcessTrace events rc).2 =
      (if rc ≠ 0 then Except.error (RunErr.exitedNonzero rc (normalizeReturnCode rc))
       else Except.ok ()) := by
    unfold runProcessTrace
    rcases h : streamOutput events with ⟨acts, r⟩
    rw [h] at hstream
    simp only at hstream
    subst hstream
    rfl
  refine ⟨?_, ?_, ?_, ?_⟩
  · intro h; unfold normalizeReturnCode; rw [if_pos h]
  · intro h; unfold normalizeReturnCode; rw [if_neg (by omega)]
  · intro h; rw [hrun, if_neg (by omega)]
  · intro h; rw [hrun, if_pos h]

/-- Witness for `exit_status_normalization`: the raw status 4294967294
normalizes to -2 and fails carrying both values. -/
theorem exit_status_normalization_witness :
    normalizeReturnCode 4294967294 = -2 ∧
    (runProcessTrace [] 4294967294).2 =
      Except.error (RunErr.exitedNonzero 4294967294 (-2)) ∧
    (runProcessTrace [] 0).2 = Except.ok () := by
  have h := exit_status_normalization 4294967294 [] rfl
  have h0 := exit_status_normalization 0 [] rfl
  have hn : normalizeReturnCode 4294967294 = -2 := by
    rw [h.1 (by norm_num)]; norm_num
  refine ⟨hn, ?_, h0.2.2.1 rfl⟩
  rw [h.2.2.2 (by norm_num), hn]

/-- Helper for C9: a reader failure in the stream makes the action trace
end with the forced kill of the child. -/
theorem streamOutput_fail_last (events : List StreamEvent) (e : String)
    (h : (streamOutput events).2 = some e) :
    (streamOutput events).1.getLast? = some RunAction.kill := by
  induction events with
  | nil => simp [streamOutput] at h
  | cons ev rest ih =>
    cases ev with
    | line s =>
      unfold streamOutput at h ⊢
      simp only at h ⊢
      have h2 := ih h
      rw [List.getLast?_append, h2]
      rfl
    | fail e2 => rfl

/-- C9: whenever the streaming loop fails, the failure propagated by the
runner is `streamInterrupted`, and the last externally visible action
before it is the forced kill of the child process — the child is never
orphaned. -/
theorem reader_failure_kills_child (events : List StreamEvent) (rc : ℤ)
    (e : String)
    (h : (runProcessTrace events rc).2 =
      Except.error (RunErr.streamInterrupted e)) :
    (runProcessTrace events rc).1.getLast? = some RunAction.kill ∧
    RunAction.kill ∈ (runProcessTrace events rc).1 := by
  rcases hs : streamOutput events with ⟨acts, r⟩
  cases r with
  | some e2 =>
    have hacts : (runProcessTrace events rc).1 = acts := by
      unfold runProcessTrace; rw [hs]
    have hlast : acts.getLast? = some RunAction.kill := by
      have := streamOutput_fail_last events e2 (by rw [hs])
      rwa [hs] at this
    refine ⟨by rw [hacts]; exact hlast, ?_⟩
    rw [hacts]
    rcases List.getLast?_eq_some_iff.mp hlast with ⟨l, hl⟩
    rw [hl]; exact List.mem_append_right _ (List.mem_singleton_self _)
  | none =>
    exfalso
    unfold runProcessTrace at h
    rw [hs] at h
    simp only at h
    by_cases hrc : rc ≠ 0
    · rw [if_pos hrc] at h; exact RunErr.noConfusion (Except.error.inj h)
    · rw [if_neg hrc] at h; exact Except.noConfusion h

/-- Witness for `reader_failure_kills_child` on a concrete failing
stream. -/
theorem reader_failure_kills_child_witness :
    (runProcessTrace [StreamEvent.line "frame=1", StreamEvent.fail "broken pipe"] 0).2 =
      Except.error (RunErr.streamInterrupted "broken pipe") ∧
    (runProcessTrace [StreamEvent.line "frame=1", StreamEvent.fail "broken pipe"] 0).1.getLast?
      = some RunAction.kill ∧
    RunAction.kill ∈
      (runProcessTrace [StreamEvent.line "frame=1", StreamEvent.fail "broken pipe"] 0).1 := by
  have h := reader_failure_kills_child
    [StreamEvent.line "frame=1", StreamEvent.fail "broken pipe"] 0 "broken pipe" rfl
  exact ⟨rfl, h.1, h.2⟩

/-- The `for inp in extra_inputs: cmd.extend(["-i", inp])` loop flattens
to an interleaved `-i` list appended to the accumulator. -/
theorem foldl_extend_inputs (ex : List String) (c0 : List String) :
    ex.foldl (fun c inp => c ++ ["-i", inp]) c0
      = c0 ++ ex.flatMap (fun inp => ["-i", inp]) := by
  induction ex generalizing c0 with
  | nil => simp
  | cons a rest ih =>
    rw [List.foldl_cons, ih, List.flatMap_cons]
    simp

/-- C2: in both modes the built argument vector is: primary input as the
first `-i` input, each extra input in order as subsequent `-i` inputs,
the joined graph description after `-filter_complex`, `-map` selections of
exactly `[vout]` and `[aout]`, the mode-specific encoding parameters, and
the destination path last. -/
theorem command_vector_shape (ffmpeg src out fc : String) (dur : ℤ)
    (ex : List String) (hfc : fc ≠ "") :
    previewCmdVector ffmpeg src dur ex fc out =
      [ffmpeg, "-y", "-ss", "0", "-t", toString dur, "-i", src]
        ++ ex.flatMap (fun inp => ["-i", inp])
        ++ ["-filter_complex", fc, "-map", "[vout]", "-map", "[aout]"]
        ++ ["-c:v", "libx264", "-preset", "veryfast", "-crf", "28", "-c:a", "aac",
            "-shortest"]
        ++ [out] ∧
    generateCmdVector ffmpeg src ex fc out =
      [ffmpeg, "-y", "-i", src]
        ++ ex.flatMap (fun inp => ["-i", inp])
        ++ ["-filter_complex", fc, "-map", "[vout]", "-map", "[aout]"]
        ++ ["-c:v", "libx264", "-preset", "fast", "-crf", "20", "-c:a", "aac",
            "-b:a", "192k"]
        ++ [out] := by
  unfold previewCmdVector generateCmdVector
  dsimp only
  rw [foldl_extend_inputs, foldl_extend_inputs, if_pos hfc, if_pos hfc]
  constructor <;> simp

/-- Witness for `command_vector_shape` on a concrete invocation with two
extra inputs. -/
theorem command_vector_shape_witness :
    previewCmdVector "ffmpeg" "clip.mp4" 8 ["ad.mp4", "snd.wav"] "[0:v]copy[vout]; [0:a]anull[aout]" "out.mp4" =
      ["ffmpeg", "-y", "-ss", "0", "-t", "8", "-i", "clip.mp4",
       "-i", "ad.mp4", "-i", "snd.wav",
       "-filter_complex", "[0:v]copy[vout]; [0:a]anull[aout]",
       "-map", "[vout]", "-map", "[aout]",
       "-c:v", "libx264", "-preset", "veryfast", "-crf", "28", "-c:a", "aac",
       "-shortest", "out.mp4"] ∧
    generateCmdVector "ffmpeg" "clip.mp4" ["ad.mp4", "snd.wav"] "[0:v]copy[vout]; [0:a]anull[aout]" "out.mp4" =
      ["ffmpeg", "-y", "-i", "clip.mp4",
       "-i", "ad.mp4", "-i", "snd.wav",
       "-filter_complex", "[0:v]copy[vout]; [0:a]anull[aout]",
       "-map", "[vout]", "-map", "[aout]",
       "-c:v", "libx264", "-preset", "fast", "-crf", "20", "-c:a", "aac",
       "-b:a", "192k", "out.mp4"] := by
  have h := command_vector_shape "ffmpeg" "clip.mp4" "out.mp4"
    "[0:v]copy[vout]; [0:a]anull[aout]" 8 ["ad.mp4", "snd.wav"] (by decide)
  exact ⟨by rw [h.1]; rfl, by rw [h.2]; rfl⟩

/-- Range-checked resolution agrees with unrestricted resolution on a
token whose placeholder index is within bounds. -/
theorem resolveTok_eq_spec (start num : Nat) (t : FTok)
    (h : tokBounded num t = true) :
    resolveTok start num t = resolveTokSpec start t := by
  cases t with
  | lit s => rfl
  | ph j v =>
    simp only [tokBounded, decide_eq_true_eq] at h
    simp only [resolveTok, resolveTokSpec]
    by_cases hj : j = 0
    · rw [if_pos hj, if_pos hj]
    · rw [if_neg hj, if_neg hj, if_pos h]

/-- Fragment-level version of `resolveTok_eq_spec`. -/
theorem resolveFrag_eq_spec (start num : Nat) (f : Frag)
    (h : f.all (tokBounded num) = true) :
    resolveFrag start num f = resolveFragSpec start f := by
  induction f with
  | nil => rfl
  | cons t ts ih =>
    rw [List.all_cons, Bool.and_eq_true] at h
    unfold resolveFrag resolveFragSpec
    rw [resolveTok_eq_spec start num t h.1, ih h.2]

/-- `specFiltersCode` agrees with `specFilters` when every placeholder of
every command is within its own extra-input count. -/
theorem specFiltersCode_eq_spec (s : Nat) (cmds : List EffCmd)
    (h : ∀ c ∈ cmds, phBounded c = true) :
    specFiltersCode s cmds = specFilters s cmds := by
  induction cmds generalizing s with
  | nil => rfl
  | cons c rest ih =>
    unfold specFiltersCode specFilters
    have hc : phBounded c = true := h c (List.mem_cons_self c rest)
    have hrest : ∀ d ∈ rest, phBounded d = true :=
      fun d hd => h d (List.mem_cons_of_mem c hd)
    rw [ih _ hrest]
    congr 1
    apply List.map_congr_left
    intro f hf
    exact resolveFrag_eq_spec s c.inputs.length f
      (by have := (List.all_eq_true.mp hc) f hf; simpa using this)

/-- Closed form of the compile loop from an arbitrary starting state. -/
theorem foldl_asmStep (cmds : List EffCmd) (st : AsmState) :
    cmds.foldl asmStep st =
      ⟨st.extraInputs ++ cmds.flatMap EffCmd.inputs,
       st.filters ++ specFiltersCode st.offset cmds,
       st.offset + (cmds.map (fun c => c.inputs.length)).sum⟩ := by
  induction cmds generalizing st with
  | nil => simp [specFiltersCode]
  | cons c rest ih =>
    rw [List.foldl_cons, ih]
    have hspec : specFiltersCode st.offset (c :: rest)
        = c.filters.map (resolveFrag st.offset c.inputs.length)
          ++ specFiltersCode (st.offset + c.inputs.length) rest := rfl
    rw [hspec]
    simp [asmStep, List.append_assoc, Nat.add_assoc]

/-- The extra-input list is the concatenation of the commands' inputs, and
the input at flattened position (prefix-sum of `k` earlier commands) + `i`
is command `k`'s `i`-th input. -/
theorem flatMap_inputs_get (cmds : List EffCmd) (k i : Nat)
    (hk : k < cmds.length) (hi : i < (cmds.get ⟨k, hk⟩).inputs.length) :
    (cmds.flatMap EffCmd.inputs)[((cmds.take k).map (fun c => c.inputs.length)).sum + i]?
      = some ((cmds.get ⟨k, hk⟩).inputs.get ⟨i, hi⟩) := by
  induction cmds generalizing k with
  | nil => exact absurd hk (by simp)
  | cons c rest ih =>
    cases k with
    | zero =>
      simp only [List.take_zero, List.map_nil, List.sum_nil, Nat.zero_add,
        List.flatMap_cons, List.get]
      rw [List.getElem?_append, if_pos (by simpa using hi)]
      simp only [List.get] at hi ⊢
      exact List.getElem?_eq_getElem hi
    | succ k2 =>
      have hk2 : k2 < rest.length := by simpa using hk
      simp only [List.flatMap_cons, List.take_succ_cons, List.map_cons,
        List.sum_cons, List.get] at hi ⊢
      rw [List.getElem?_append,
        if_neg (by omega), Nat.add_assoc, Nat.add_comm c.inputs.length _,
        Nat.add_sub_cancel]
      exact ih k2 hk2 hi

/-- C1: the fragment compiler assigns global slots to extra inputs
contiguously from 1 in catalog order — the compiled extra-input list is
the in-order concatenation of the fragments' inputs, every fragment of the
`k`-th command is resolved at start slot `startSlot cmds k = 1 + (inputs
of earlier commands)`, with `{jv}`/`{ja}` (`j ≥ 1`) rewritten to
`[startSlot+j-1:v]`/`[startSlot+j-1:a]` and `{0v}`/`{0a}` to
`[0:v]`/`[0:a]` (that is what `resolveTokSpec` does), and the input
occupying global slot `startSlot k + (j-1)` is exactly the `j`-th input of
command `k`. -/
theorem fragment_compiler_slots (cmds : List EffCmd) (k i : Nat)
    (hwf : ∀ c ∈ cmds, phBounded c = true)
    (hk : k < cmds.length)
    (hi : i < (cmds.get ⟨k, hk⟩).inputs.length) :
    (assembleCmds cmds).extraInputs = cmds.flatMap EffCmd.inputs ∧
    (assembleCmds cmds).filters = specFilters 1 cmds ∧
    (cmds.flatMap EffCmd.inputs)[(startSlot cmds k - 1) + i]?
      = some ((cmds.get ⟨k, hk⟩).inputs.get ⟨i, hi⟩) := by
  unfold assembleCmds
  rw [foldl_asmStep]
  refine ⟨by simp, ?_, ?_⟩
  · simpa using specFiltersCode_eq_spec 1 cmds hwf
  · have : startSlot cmds k - 1 = ((cmds.take k).map (fun c => c.inputs.length)).sum := by
      unfold startSlot; omega
    rw [this]
    exact flatMap_inputs_get cmds k i hk hi

/-- Witness for `fragment_compiler_slots` on two concrete commands (one
with one input, one with two): slots 1, 2, 3 are assigned contiguously and
the second command's placeholders resolve at its start slot 2. -/
theorem fragment_compiler_slots_witness :
    (assembleCmds
        [⟨["a.png"], [[.ph 0 true, .ph 1 true, .lit "ov[vout]"]]⟩,
         ⟨["b.png", "c.wav"], [[.ph 0 false, .ph 2 false, .lit "mix[aout]"]]⟩]).extraInputs
      = ["a.png", "b.png", "c.wav"] ∧
    (assembleCmds
        [⟨["a.png"], [[.ph 0 true, .ph 1 true, .lit "ov[vout]"]]⟩,
         ⟨["b.png", "c.wav"], [[.ph 0 false, .ph 2 false, .lit "mix[aout]"]]⟩]).filters
      = ["[0:v][1:v]ov[vout]", "[0:a][3:a]mix[aout]"] ∧
    (["a.png", "b.png", "c.wav"] : List String)[2]? = some "c.wav" := by
  have h := fragment_compiler_slots
    [⟨["a.png"], [[.ph 0 true, .ph 1 true, .lit "ov[vout]"]]⟩,
     ⟨["b.png", "c.wav"], [[.ph 0 false, .ph 2 false, .lit "mix[aout]"]]⟩]
    1 1 (by decide) (by decide) (by decide)
  exact ⟨h.1, by rw [h.2.1]; decide, by decide⟩

/-- A token other than an empty literal resolves to a non-empty string. -/
theorem resolveTok_length_pos (s n : Nat) (t : FTok)
    (h : match t with | .lit x => x ≠ "" | .ph _ _ => True) :
    0 < (resolveTok s n t).length := by
  cases t with
  | lit x =>
    simp only [resolveTok]
    rcases Nat.eq_zero_or_pos x.length with h0 | h0
    · exfalso
      apply h
      cases x with
      | mk data => cases data with
        | nil => rfl
        | cons a l => simp [String.length, List.length] at h0
    · exact h0
  | ph j v =>
    simp only [resolveTok]
    by_cases hj : j = 0
    · rw [if_pos hj]
      cases v <;> decide
    · rw [if_neg hj]
      by_cases hn : j ≤ n
      · rw [if_pos hn]
        rw [String.length_append, String.length_append]
        have h1 : 0 < "[".length := by decide
        omega
      · rw [if_neg hn]
        rw [String.length_append, String.length_append]
        have h1 : 0 < "\x7b".length := by decide
        omega

/-- A fragment whose head passes `headOk` resolves to a non-empty
string. -/
theorem resolveFrag_ne_empty (s n : Nat) (f : Frag) (h : headOk f = true) :
    resolveFrag s n f ≠ "" := by
  match f with
  | [] => simp [headOk] at h
  | t :: ts =>
    have hpos : 0 < (resolveTok s n t).length := by
      apply resolveTok_length_pos
      cases t with
      | lit x =>
        simp only [headOk, Bool.not_eq_true'] at h
        simpa using h
      | ph j v => trivial
    intro he
    have : (resolveFrag s n (t :: ts)).length = 0 := by rw [he]; rfl
    rw [show resolveFrag s n (t :: ts) = resolveTok s n t ++ resolveFrag s n ts from rfl,
      String.length_append] at this
    omega

/-- Every fragment emitted by any branch of `build_effect_command_for`
starts with a placeholder or a non-empty literal. -/
theorem build_filters_headOk (pick : List String → Nat) (pathExists : String → Bool)
    (key : String) (level : ℚ) (srcPath : String) (overlayPath : Option String)
    (assets : String → List String) :
    ((buildEffectCommandFor pick pathExists key level srcPath overlayPath
        assets).filters).all headOk = true := by
  unfold buildEffectCommandFor
  by_cases h1 : key = "random_sound"
  · rw [if_pos h1]; try rfl
  rw [if_neg h1]
  by_cases h2 : key = "sounds"
  · rw [if_pos h2]
    rcases chooseAsset pick (assets "sounds") with _ | c
    · rfl
    (repeat' split) <;> rfl
  rw [if_neg h2]
  by_cases h3 : key = "reverse"
  · rw [if_pos h3]; try rfl
  rw [if_neg h3]
  by_cases h4 : key = "speed"
  · rw [if_pos h4]; try rfl
  rw [if_neg h4]
  by_cases h5 : key = "chorus"
  · rw [if_pos h5]; try rfl
  rw [if_neg h5]
  by_cases h6 : key = "vibrato"
  · rw [if_pos h6]; try rfl
  rw [if_neg h6]
  by_cases h7 : key = "stutter"
  · rw [if_pos h7]; try rfl
  rw [if_neg h7]
  by_cases h8 : key = "earrape"
  · rw [if_pos h8]; try rfl
  rw [if_neg h8]
  by_cases h9 : key = "autotune"
  · rw [if_pos h9]; try rfl
  rw [if_neg h9]
  by_cases h10 : key = "dance_squid"
  · rw [if_pos h10]; try rfl
  rw [if_neg h10]
  by_cases h11 : key = "invert"
  · rw [if_pos h11]; try rfl
  rw [if_neg h11]
  by_cases h12 : key = "rainbow"
  · rw [if_pos h12]
    dsimp only
    rcases overlayPath with _ | p <;>
      rcases chooseAsset pick (assets "images") with _ | c <;>
      (repeat' split) <;> rfl
  rw [if_neg h12]
  by_cases h13 : key = "mirror"
  · rw [if_pos h13]; try rfl
  rw [if_neg h13]
  by_cases h14 : key = "sus"
  · rw [if_pos h14]; try rfl
  rw [if_neg h14]
  by_cases h15 : key = "explosion_spam"
  · rw [if_pos h15]
    rcases pyOr (chooseAsset pick (assets "images")) overlayPath with _ | c
    · rfl
    (repeat' split) <;> rfl
  rw [if_neg h15]
  by_cases h16 : key = "frame_shuffle"
  · rw [if_pos h16]; try rfl
  rw [if_neg h16]
  by_cases h17 : key = "meme_injection"
  · rw [if_pos h17]
    dsimp only
    split_ifs <;> rfl
  rw [if_neg h17]
  by_cases h18 : key = "meme_sounds"
  · rw [if_pos h18]
    rcases chooseAsset pick (assets "meme_sounds") with _ | c
    · rfl
    (repeat' split) <;> rfl
  rw [if_neg h18]
  by_cases h19 : key = "memes"
  · rw [if_pos h19]
    dsimp only
    split_ifs <;> rfl
  rw [if_neg h19]
  by_cases h20 : key = "sentence_mix"
  · rw [if_pos h20]; try rfl
  rw [if_neg h20]
  by_cases h21 : key = "adverts"
  · rw [if_pos h21]
    rcases chooseAsset pick (assets "adverts") with _ | c
    · rfl
    (repeat' split) <;> rfl
  rw [if_neg h21]
  by_cases h22 : key = "errors"
  · rw [if_pos h22]
    rcases chooseAsset pick (assets "errors") with _ | c
    · rfl
    (repeat' split) <;> rfl
  rw [if_neg h22]
  by_cases h23 : key = "images"
  · rw [if_pos h23]
    rcases chooseAsset pick (assets "images") with _ | c
    · rfl
    (repeat' split) <;> rfl
  rw [if_neg h23]
  by_cases h24 : key = "overlay_videos"
  · rw [if_pos h24]
    rcases chooseAsset pick (assets "overlays_videos") with _ | c
    · rfl
    (repeat' split) <;> rfl
  rw [if_neg h24]
  rfl

/-- Any command produced by the gate-and-build step is a builder output,
so all its fragments pass `headOk`. -/
theorem gateBuild_filters_headOk (pick : List String → Nat)
    (pathExists : String → Bool) (draw : String → ℚ) (srcPath : String)
    (overlayPath : Option String) (chosenEffects : String → Option EffectSel)
    (assets : String → List String) (meta : EffectMeta) (cmd : EffCmd)
    (h : gateBuild pick pathExists draw srcPath overlayPath chosenEffects assets meta
          = some cmd) :
    cmd.filters.all headOk = true := by
  unfold gateBuild at h
  rcases hce : chosenEffects meta.key with _ | cfg
  · rw [hce] at h; exact Option.noConfusion h
  · rw [hce] at h
    dsimp only at h
    split_ifs at h
    have := Option.some.inj h
    subst this
    exact build_filters_headOk pick pathExists meta.key
      (cfg.level.getD meta.default_level) srcPath overlayPath assets

/-- Every string in the declaratively compiled filter list is non-empty
when all fragments pass `headOk`. -/
theorem specFiltersCode_ne_empty (s : Nat) (cmds : List EffCmd)
    (h : ∀ c ∈ cmds, c.filters.all headOk = true) :
    ∀ x ∈ specFiltersCode s cmds, x ≠ "" := by
  induction cmds generalizing s with
  | nil => intro x hx; simp [specFiltersCode] at hx
  | cons c rest ih =>
    intro x hx
    rw [show specFiltersCode s (c :: rest)
        = c.filters.map (resolveFrag s c.inputs.length)
          ++ specFiltersCode (s + c.inputs.length) rest from rfl,
      List.mem_append] at hx
    rcases hx with hx | hx
    · rcases List.mem_map.mp hx with ⟨f, hf, rfl⟩
      apply resolveFrag_ne_empty
      exact List.all_eq_true.mp (h c (List.mem_cons_self c rest)) f hf
    · exact ih (s + c.inputs.length)
        (fun d hd => h d (List.mem_cons_of_mem c hd)) x hx

/-- A fold that skips `none` gate results equals the plain fold over the
surviving commands. -/
theorem foldl_gate (g : EffectMeta → Option EffCmd) (l : List EffectMeta)
    (st : AsmState) :
    l.foldl (fun st meta => match g meta with
              | none => st
              | some cmd => asmStep st cmd) st
      = (l.filterMap g).foldl asmStep st := by
  induction l generalizing st with
  | nil => rfl
  | cons m rest ih =>
    rw [List.foldl_cons, List.filterMap_cons]
    cases hg : g m with
    | none => simp only [hg]; exact ih st
    | some cmd => simp only [hg, List.foldl_cons]; exact ih (asmStep st cmd)

/-- `_assemble_filter_complex` in terms of the gated command list and the
compile loop. -/
theorem assembleFilterComplex_eq (pick : List String → Nat)
    (pathExists : String → Bool) (draw : String → ℚ) (srcPath : String)
    (overlayPath : Option String) (chosenEffects : String → Option EffectSel)
    (assets : String → List String) :
    assembleFilterComplex pick pathExists draw srcPath overlayPath chosenEffects assets
      = ((assembleCmds (selectedCmds pick pathExists draw srcPath overlayPath
            chosenEffects assets)).extraInputs,
         joinSep "; "
           (if (assembleCmds (selectedCmds pick pathExists draw srcPath overlayPath
                  chosenEffects assets)).filters = []
            then ["[0:v]copy[vout]", "[0:a]anull[aout]"]
            else (assembleCmds (selectedCmds pick pathExists draw srcPath overlayPath
                  chosenEffects assets)).filters)) := by
  unfold assembleFilterComplex selectedCmds assembleCmds
  dsimp only
  rw [foldl_gate]

/-- A `"; ".join` of non-empty strings is non-empty. -/
theorem joinSep_ne_empty (l : List String) (hne : l ≠ [])
    (hall : ∀ x ∈ l, x ≠ "") : joinSep "; " l ≠ "" := by
  match l with
  | [x] =>
    have := hall x (by simp)
    simpa [joinSep] using this
  | x :: y :: ys =>
    intro he
    have hlen : (joinSep "; " (x :: y :: ys)).length = 0 := by rw [he]; rfl
    rw [show joinSep "; " (x :: y :: ys)
        = x ++ "; " ++ joinSep "; " (y :: ys) from rfl,
      String.length_append, String.length_append] at hlen
    have h2 : (0 : Nat) < "; ".length := by decide
    omega

/-- The compile loop's accumulated filters are exactly the declarative
filter list starting at slot 1. -/
theorem assembleCmds_filters (cmds : List EffCmd) :
    (assembleCmds cmds).filters = specFiltersCode 1 cmds := by
  unfold assembleCmds
  rw [foldl_asmStep]
  rfl

/-- Every string accumulated by the compile loop is non-empty. -/
theorem selected_filters_ne_empty (pick : List String → Nat)
    (pathExists : String → Bool) (draw : String → ℚ) (srcPath : String)
    (overlayPath : Option String) (chosenEffects : String → Option EffectSel)
    (assets : String → List String) :
    ∀ x ∈ (assembleCmds (selectedCmds pick pathExists draw srcPath overlayPath
        chosenEffects assets)).filters, x ≠ "" := by
  rw [assembleCmds_filters]
  apply specFiltersCode_ne_empty
  intro c hc
  rcases List.mem_filterMap.mp hc with ⟨m, _, hg⟩
  exact gateBuild_filters_headOk pick pathExists draw srcPath overlayPath
    chosenEffects assets m c hg

/-- C10: for every selection of effects the assembled graph description is
non-empty (at minimum the global no-op), so both command vectors always
contain the `-filter_complex` argument followed by the graph and both
`-map` arguments. -/
theorem graph_description_nonempty (pick : List String → Nat)
    (pathExists : String → Bool) (draw : String → ℚ) (srcPath : String)
    (overlayPath : Option String) (chosenEffects : String → Option EffectSel)
    (assets : String → List String) (ffmpeg outPath : String) (dur : ℤ) :
    (assembleFilterComplex pick pathExists draw srcPath overlayPath
        chosenEffects assets).2 ≠ "" ∧
    ["-filter_complex",
     (assembleFilterComplex pick pathExists draw srcPath overlayPath
        chosenEffects assets).2,
     "-map", "[vout]", "-map", "[aout]"] <:+:
      previewCmdVector ffmpeg srcPath dur
        (assembleFilterComplex pick pathExists draw srcPath overlayPath
          chosenEffects assets).1
        (assembleFilterComplex pick pathExists draw srcPath overlayPath
          chosenEffects assets).2 outPath ∧
    ["-filter_complex",
     (assembleFilterComplex pick pathExists draw srcPath overlayPath
        chosenEffects assets).2,
     "-map", "[vout]", "-map", "[aout]"] <:+:
      generateCmdVector ffmpeg srcPath
        (assembleFilterComplex pick pathExists draw srcPath overlayPath
          chosenEffects assets).1
        (assembleFilterComplex pick pathExists draw srcPath overlayPath
          chosenEffects assets).2 outPath ∧
    ((∀ k, chosenEffects k = none) →
      (assembleFilterComplex pick pathExists draw srcPath overlayPath
        chosenEffects assets).2 = "[0:v]copy[vout]; [0:a]anull[aout]") := by
  have hfc : (assembleFilterComplex pick pathExists draw srcPath overlayPath
      chosenEffects assets).2 ≠ "" := by
    rw [assembleFilterComplex_eq]
    by_cases hf : (assembleCmds (selectedCmds pick pathExists draw srcPath
        overlayPath chosenEffects assets)).filters = []
    · rw [show ((assembleCmds (selectedCmds pick pathExists draw srcPath overlayPath
          chosenEffects assets)).extraInputs,
          joinSep "; "
            (if (assembleCmds (selectedCmds pick pathExists draw srcPath overlayPath
                  chosenEffects assets)).filters = []
             then ["[0:v]copy[vout]", "[0:a]anull[aout]"]
             else (assembleCmds (selectedCmds pick pathExists draw srcPath overlayPath
                  chosenEffects assets)).filters)).2
          = joinSep "; "
            (if (assembleCmds (selectedCmds pick pathExists draw srcPath overlayPath
                  chosenEffects assets)).filters = []
             then ["[0:v]copy[vout]", "[0:a]anull[aout]"]
             else (assembleCmds (selectedCmds pick pathExists draw srcPath overlayPath
                  chosenEffects assets)).filters) from rfl, if_pos hf]
      decide
    · rw [show ((assembleCmds (selectedCmds pick pathExists draw srcPath overlayPath
          chosenEffects assets)).extraInputs,
          joinSep "; "
            (if (assembleCmds (selectedCmds pick pathExists draw srcPath overlayPath
                  chosenEffects assets)).filters = []
             then ["[0:v]copy[vout]", "[0:a]anull[aout]"]
             else (assembleCmds (selectedCmds pick pathExists draw srcPath overlayPath
                  chosenEffects assets)).filters)).2
          = joinSep "; "
            (if (assembleCmds (selectedCmds pick pathExists draw srcPath overlayPath
                  chosenEffects assets)).filters = []
             then ["[0:v]copy[vout]", "[0:a]anull[aout]"]
             else (assembleCmds (selectedCmds pick pathExists draw srcPath overlayPath
                  chosenEffects assets)).filters) from rfl, if_neg hf]
      exact joinSep_ne_empty _ hf
        (selected_filters_ne_empty pick pathExists draw srcPath overlayPath
          chosenEffects assets)
  refine ⟨hfc, ?_, ?_, ?_⟩
  · refine ⟨[ffmpeg, "-y", "-ss", "0", "-t", toString dur, "-i", srcPath]
        ++ (assembleFilterComplex pick pathExists draw srcPath overlayPath
              chosenEffects assets).1.flatMap (fun inp => ["-i", inp]),
      ["-c:v", "libx264", "-preset", "veryfast", "-crf", "28", "-c:a", "aac",
       "-shortest", outPath], ?_⟩
    unfold previewCmdVector
    dsimp only
    rw [foldl_extend_inputs, if_pos hfc]
  · refine ⟨[ffmpeg, "-y", "-i", srcPath]
        ++ (assembleFilterComplex pick pathExists draw srcPath overlayPath
              chosenEffects assets).1.flatMap (fun inp => ["-i", inp]),
      ["-c:v", "libx264", "-preset", "fast", "-crf", "20", "-c:a", "aac",
       "-b:a", "192k", outPath], ?_⟩
    unfold generateCmdVector
    dsimp only
    rw [foldl_extend_inputs, if_pos hfc]
  · intro hnone
    have hsel : selectedCmds pick pathExists draw srcPath overlayPath
        chosenEffects assets = [] := by
      unfold selectedCmds
      apply List.filterMap_eq_nil_iff.mpr
      intro m _
      unfold gateBuild
      rw [hnone m.key]
    rw [assembleFilterComplex_eq, hsel]
    rfl

/-- Witness for `graph_description_nonempty`: with no effect enabled the
graph description is exactly the global no-op and still reaches the
command line. -/
theorem graph_description_nonempty_witness :
    (assembleFilterComplex (fun _ => 0) (fun _ => false) (fun _ => 1)
        "clip.mp4" none (fun _ => none) (fun _ => [])).2
      = "[0:v]copy[vout]; [0:a]anull[aout]" ∧
    (assembleFilterComplex (fun _ => 0) (fun _ => false) (fun _ => 1)
        "clip.mp4" none (fun _ => none) (fun _ => [])).2 ≠ "" ∧
    ["-filter_complex", "[0:v]copy[vout]; [0:a]anull[aout]",
     "-map", "[vout]", "-map", "[aout]"] <:+:
      previewCmdVector "ffmpeg" "clip.mp4" 8 []
        "[0:v]copy[vout]; [0:a]anull[aout]" "out.mp4" := by
  have h := graph_description_nonempty (fun _ => 0) (fun _ => false) (fun _ => 1)
    "clip.mp4" none (fun _ => none) (fun _ => []) "ffmpeg" "out.mp4" 8
  have he : (assembleFilterComplex (fun _ => 0) (fun _ => false) (fun _ => 1)
      "clip.mp4" none (fun _ => none) (fun _ => [])).2
      = "[0:v]copy[vout]; [0:a]anull[aout]" := h.2.2.2 (fun _ => rfl)
  have h1 : (assembleFilterComplex (fun _ => 0) (fun _ => false) (fun _ => 1)
      "clip.mp4" none (fun _ => none) (fun _ => [])).1 = ([] : List String) := rfl
  have h2 := h.2.1
  rw [he, h1] at h2
  exact ⟨he, h.1, h2⟩

/-- Closed form of the `_verify_files_exist` accumulation loop. -/
theorem foldl_missing (isFile : String → Bool) (extras : List String)
    (m0 : List (String × String)) :
    extras.foldl
      (fun m p => if p = "" ∨ isFile p = false then m ++ [("extra", p)] else m) m0
      = m0 ++ (extras.filter
          (fun p => decide (p = "" ∨ isFile p = false))).map (fun p => ("extra", p)) := by
  induction extras generalizing m0 with
  | nil => simp
  | cons a rest ih =>
    rw [List.foldl_cons]
    by_cases ha : a = "" ∨ isFile a = false
    · rw [if_pos ha, ih, List.filter_cons, if_pos (by simpa using ha)]
      simp
    · rw [if_neg ha, ih, List.filter_cons, if_neg (by simpa using ha)]

/-- The `missing` list of `_verify_files_exist`: the (possibly missing)
source entry followed by the missing extra entries in order. -/
theorem missingFiles_eq (isFile : String → Bool) (src : String)
    (extras : List String) :
    missingFiles isFile src extras
      = (if src = "" ∨ isFile src = false then [("source", src)] else [])
        ++ (extras.filter
            (fun p => decide (p = "" ∨ isFile p = false))).map (fun p => ("extra", p)) := by
  unfold missingFiles
  dsimp only
  rw [foldl_missing]

/-- A `("source", p)` entry occurs in the missing list exactly when the
source path itself is missing. -/
theorem mem_missingFiles_source (isFile : String → Bool) (src : String)
    (extras : List String) (p : String) :
    ("source", p) ∈ missingFiles isFile src extras
      ↔ p = src ∧ (src = "" ∨ isFile src = false) := by
  rw [missingFiles_eq, List.mem_append]
  constructor
  · rintro (hm | hm)
    · by_cases h0 : src = "" ∨ isFile src = false
      · rw [if_pos h0] at hm
        simp only [List.mem_singleton, Prod.mk.injEq, true_and] at hm
        exact ⟨hm, h0⟩
      · rw [if_neg h0] at hm
        simp at hm
    · rcases List.mem_map.mp hm with ⟨q, _, heq⟩
      have hbad : "extra" = "source" := congrArg Prod.fst heq
      exact absurd hbad (by decide)
  · rintro ⟨rfl, h0⟩
    left
    rw [if_pos h0]
    simp

/-- An `("extra", p)` entry occurs in the missing list exactly when `p` is
one of the extra inputs and is missing. -/
theorem mem_missingFiles_extra (isFile : String → Bool) (src : String)
    (extras : List String) (p : String) :
    ("extra", p) ∈ missingFiles isFile src extras
      ↔ p ∈ extras ∧ (p = "" ∨ isFile p = false) := by
  rw [missingFiles_eq, List.mem_append]
  constructor
  · rintro (hm | hm)
    · by_cases h0 : src = "" ∨ isFile src = false
      · rw [if_pos h0] at hm
        simp only [List.mem_singleton, Prod.mk.injEq] at hm
        have hbad : "extra" = "source" := hm.1
        exact absurd hbad (by decide)
      · rw [if_neg h0] at hm
        simp at hm
    · rcases List.mem_map.mp hm with ⟨q, hq, heq⟩
      have hpq : q = p := (Prod.mk.injEq _ _ _ _).mp heq |>.2
      subst hpq
      rcases List.mem_filter.mp hq with ⟨hmem, hcond⟩
      exact ⟨hmem, by simpa using hcond⟩
  · rintro ⟨hmem, hcond⟩
    right
    exact List.mem_map.mpr ⟨p, List.mem_filter.mpr ⟨hmem, by simpa using hcond⟩, rfl⟩

/-- C5: whenever the source path or any compiled extra-input path is
missing (empty or not a regular file), both `generate_preview` and
`generate` fail with the missing-input error enumerating every missing
path labelled `"source"`/`"extra"`, and no command is ever handed to the
process spawner. -/
theorem missing_inputs_fail_fast (pick : List String → Nat)
    (pathExists isFile : String → Bool) (draw : String → ℚ)
    (ffmpeg srcPath : String) (overlayPath : Option String) (duration : ℤ)
    (chosenEffects : String → Option EffectSel) (assets : String → List String)
    (outPath : String)
    (h : srcPath = "" ∨ isFile srcPath = false
      ∨ ∃ p ∈ (assembleFilterComplex pick pathExists draw srcPath overlayPath
          chosenEffects assets).1, p = "" ∨ isFile p = false) :
    missingFiles isFile srcPath (assembleFilterComplex pick pathExists draw srcPath
        overlayPath chosenEffects assets).1 ≠ [] ∧
    generatePreview pick pathExists isFile draw ffmpeg srcPath overlayPath duration
        chosenEffects assets outPath
      = Except.error (missingFiles isFile srcPath
          (assembleFilterComplex pick pathExists draw srcPath overlayPath
            chosenEffects assets).1) ∧
    generateRun pick pathExists isFile draw ffmpeg srcPath overlayPath
        chosenEffects assets outPath
      = Except.error (missingFiles isFile srcPath
          (assembleFilterComplex pick pathExists draw srcPath overlayPath
            chosenEffects assets).1) ∧
    (∀ p, ("source", p) ∈ missingFiles isFile srcPath
        (assembleFilterComplex pick pathExists draw srcPath overlayPath
          chosenEffects assets).1
      ↔ p = srcPath ∧ (srcPath = "" ∨ isFile srcPath = false)) ∧
    (∀ p, ("extra", p) ∈ missingFiles isFile srcPath
        (assembleFilterComplex pick pathExists draw srcPath overlayPath
          chosenEffects assets).1
      ↔ p ∈ (assembleFilterComplex pick pathExists draw srcPath overlayPath
          chosenEffects assets).1 ∧ (p = "" ∨ isFile p = false)) ∧
    (∀ cmd, generatePreview pick pathExists isFile draw ffmpeg srcPath overlayPath
        duration chosenEffects assets outPath ≠ Except.ok cmd) ∧
    (∀ cmd, generateRun pick pathExists isFile draw ffmpeg srcPath overlayPath
        chosenEffects assets outPath ≠ Except.ok cmd) := by
  have hne : missingFiles isFile srcPath (assembleFilterComplex pick pathExists draw
      srcPath overlayPath chosenEffects assets).1 ≠ [] := by
    intro h0
    rcases h with hs | hs | ⟨p, hp, hc⟩
    · have hmem := (mem_missingFiles_source isFile srcPath
        (assembleFilterComplex pick pathExists draw srcPath overlayPath chosenEffects assets).1 srcPath).mpr ⟨rfl, Or.inl hs⟩
      rw [h0] at hmem
      exact absurd hmem (List.not_mem_nil _)
    · have hmem := (mem_missingFiles_source isFile srcPath
        (assembleFilterComplex pick pathExists draw srcPath overlayPath chosenEffects assets).1 srcPath).mpr ⟨rfl, Or.inr hs⟩
      rw [h0] at hmem
      exact absurd hmem (List.not_mem_nil _)
    · have hmem := (mem_missingFiles_extra isFile srcPath
        (assembleFilterComplex pick pathExists draw srcPath overlayPath chosenEffects assets).1 p).mpr ⟨hp, hc⟩
      rw [h0] at hmem
      exact absurd hmem (List.not_mem_nil _)
  have hprev : generatePreview pick pathExists isFile draw ffmpeg srcPath overlayPath
      duration chosenEffects assets outPath
      = Except.error (missingFiles isFile srcPath
          (assembleFilterComplex pick pathExists draw srcPath overlayPath
            chosenEffects assets).1) := by
    unfold generatePreview
    dsimp only
    rw [if_neg hne]
  have hgen : generateRun pick pathExists isFile draw ffmpeg srcPath overlayPath
      chosenEffects assets outPath
      = Except.error (missingFiles isFile srcPath
          (assembleFilterComplex pick pathExists draw srcPath overlayPath
            chosenEffects assets).1) := by
    unfold generateRun
    dsimp only
    rw [if_neg hne]
  refine ⟨hne, hprev, hgen,
    fun p => mem_missingFiles_source isFile srcPath _ p,
    fun p => mem_missingFiles_extra isFile srcPath _ p, ?_, ?_⟩
  · intro cmd hcmd
    rw [hprev] at hcmd
    exact Except.noConfusion hcmd
  · intro cmd hcmd
    rw [hgen] at hcmd
    exact Except.noConfusion hcmd

/-- Witness for `missing_inputs_fail_fast`: a non-existent source path
fails with the labelled missing-input error and never yields a command. -/
theorem missing_inputs_fail_fast_witness :
    generatePreview (fun _ => 0) (fun _ => false) (fun _ => false) (fun _ => 1)
        "ffmpeg" "clip.mp4" none 8 (fun _ => none) (fun _ => []) "out.mp4"
      = Except.error [("source", "clip.mp4")] ∧
    generateRun (fun _ => 0) (fun _ => false) (fun _ => false) (fun _ => 1)
        "ffmpeg" "clip.mp4" none (fun _ => none) (fun _ => []) "out.mp4"
      = Except.error [("source", "clip.mp4")] ∧
    ∀ cmd, generatePreview (fun _ => 0) (fun _ => false) (fun _ => false) (fun _ => 1)
        "ffmpeg" "clip.mp4" none 8 (fun _ => none) (fun _ => []) "out.mp4"
      ≠ Except.ok cmd := by
  have h := missing_inputs_fail_fast (fun _ => 0) (fun _ => false) (fun _ => false)
    (fun _ => 1) "ffmpeg" "clip.mp4" none 8 (fun _ => none) (fun _ => [])
    "out.mp4" (Or.inr (Or.inl rfl))
  exact ⟨by rw [h.2.1]; rfl, by rw [h.2.2.1]; rfl, h.2.2.2.2.2.1⟩


/-- No branch of `build_effect_command_for` returns an empty filter
list. -/
theorem build_filters_ne_nil (pick : List String → Nat) (pathExists : String → Bool)
    (key : String) (level : ℚ) (srcPath : String) (overlayPath : Option String)
    (assets : String → List String) :
    (buildEffectCommandFor pick pathExists key level srcPath overlayPath
        assets).filters ≠ [] := by
  unfold buildEffectCommandFor
  by_cases h1 : key = "random_sound"
  · rw [if_pos h1]; exact List.cons_ne_nil _ _
  rw [if_neg h1]
  by_cases h2 : key = "sounds"
  · rw [if_pos h2]
    rcases chooseAsset pick (assets "sounds") with _ | c
    · exact List.cons_ne_nil _ _
    (repeat' split) <;> exact List.cons_ne_nil _ _
  rw [if_neg h2]
  by_cases h3 : key = "reverse"
  · rw [if_pos h3]; exact List.cons_ne_nil _ _
  rw [if_neg h3]
  by_cases h4 : key = "speed"
  · rw [if_pos h4]; exact List.cons_ne_nil _ _
  rw [if_neg h4]
  by_cases h5 : key = "chorus"
  · rw [if_pos h5]; exact List.cons_ne_nil _ _
  rw [if_neg h5]
  by_cases h6 : key = "vibrato"
  · rw [if_pos h6]; exact List.cons_ne_nil _ _
  rw [if_neg h6]
  by_cases h7 : key = "stutter"
  · rw [if_pos h7]; exact List.cons_ne_nil _ _
  rw [if_neg h7]
  by_cases h8 : key = "earrape"
  · rw [if_pos h8]; exact List.cons_ne_nil _ _
  rw [if_neg h8]
  by_cases h9 : key = "autotune"
  · rw [if_pos h9]; exact List.cons_ne_nil _ _
  rw [if_neg h9]
  by_cases h10 : key = "dance_squid"
  · rw [if_pos h10]; exact List.cons_ne_nil _ _
  rw [if_neg h10]
  by_cases h11 : key = "invert"
  · rw [if_pos h11]; exact List.cons_ne_nil _ _
  rw [if_neg h11]
  by_cases h12 : key = "rainbow"
  · rw [if_pos h12]
    dsimp only
    rcases overlayPath with _ | p <;>
      rcases chooseAsset pick (assets "images") with _ | c <;>
      (repeat' split) <;> exact List.cons_ne_nil _ _
  rw [if_neg h12]
  by_cases h13 : key = "mirror"
  · rw [if_pos h13]; exact List.cons_ne_nil _ _
  rw [if_neg h13]
  by_cases h14 : key = "sus"
  · rw [if_pos h14]; exact List.cons_ne_nil _ _
  rw [if_neg h14]
  by_cases h15 : key = "explosion_spam"
  · rw [if_pos h15]
    rcases pyOr (chooseAsset pick (assets "images")) overlayPath with _ | c
    · exact List.cons_ne_nil _ _
    (repeat' split) <;> exact List.cons_ne_nil _ _
  rw [if_neg h15]
  by_cases h16 : key = "frame_shuffle"
  · rw [if_pos h16]; exact List.cons_ne_nil _ _
  rw [if_neg h16]
  by_cases h17 : key = "meme_injection"
  · rw [if_pos h17]
    dsimp only
    split_ifs <;> simp
  rw [if_neg h17]
  by_cases h18 : key = "meme_sounds"
  · rw [if_pos h18]
    rcases chooseAsset pick (assets "meme_sounds") with _ | c
    · exact List.cons_ne_nil _ _
    (repeat' split) <;> exact List.cons_ne_nil _ _
  rw [if_neg h18]
  by_cases h19 : key = "memes"
  · rw [if_pos h19]
    dsimp only
    split_ifs <;> simp
  rw [if_neg h19]
  by_cases h20 : key = "sentence_mix"
  · rw [if_pos h20]; exact List.cons_ne_nil _ _
  rw [if_neg h20]
  by_cases h21 : key = "adverts"
  · rw [if_pos h21]
    rcases chooseAsset pick (assets "adverts") with _ | c
    · exact List.cons_ne_nil _ _
    (repeat' split) <;> exact List.cons_ne_nil _ _
  rw [if_neg h21]
  by_cases h22 : key = "errors"
  · rw [if_pos h22]
    rcases chooseAsset pick (assets "errors") with _ | c
    · exact List.cons_ne_nil _ _
    (repeat' split) <;> exact List.cons_ne_nil _ _
  rw [if_neg h22]
  by_cases h23 : key = "images"
  · rw [if_pos h23]
    rcases chooseAsset pick (assets "images") with _ | c
    · exact List.cons_ne_nil _ _
    (repeat' split) <;> exact List.cons_ne_nil _ _
  rw [if_neg h23]
  by_cases h24 : key = "overlay_videos"
  · rw [if_pos h24]
    rcases chooseAsset pick (assets "overlays_videos") with _ | c
    · exact List.cons_ne_nil _ _
    (repeat' split) <;> exact List.cons_ne_nil _ _
  rw [if_neg h24]
  exact List.cons_ne_nil _ _

/-- Clamping to `[lo, hi]` is idempotent. -/
theorem clamp_idem (lo hi x : ℚ) (h : lo ≤ hi) :
    max lo (min hi (max lo (min hi x))) = max lo (min hi x) := by
  have h2 : max lo (min hi x) ≤ hi := max_le h (min_le_left hi x)
  have h1 : lo ≤ max lo (min hi x) := le_max_left _ _
  rw [min_eq_right h2, max_eq_right h1]

/-- C8 (amended): `build_effect_command_for` never raises and always
returns a fragment (non-empty filter list) for every key and intensity;
the speed, vibrato and earrape builders are invariant under clamping the
intensity into their ranges (`[0.125,4]`, `[0.5,2]`, `[2,30]`), i.e. they
use only the clamped intensity. The chorus and stutter builders do not
clamp the intensity itself (see the counterexample). -/
theorem builder_total_and_clamps (pick : List String → Nat)
    (pathExists : String → Bool) (key : String) (level : ℚ) (srcPath : String)
    (overlayPath : Option String) (assets : String → List String) :
    (buildEffectCommandFor pick pathExists key level srcPath overlayPath
        assets).filters ≠ [] ∧
    buildEffectCommandFor pick pathExists "speed" level srcPath overlayPath assets
      = buildEffectCommandFor pick pathExists "speed"
          (max 0.125 (min 4.0 level)) srcPath overlayPath assets ∧
    buildEffectCommandFor pick pathExists "vibrato" level srcPath overlayPath assets
      = buildEffectCommandFor pick pathExists "vibrato"
          (max 0.5 (min 2.0 level)) srcPath overlayPath assets ∧
    buildEffectCommandFor pick pathExists "earrape" level srcPath overlayPath assets
      = buildEffectCommandFor pick pathExists "earrape"
          (max 2.0 (min 30.0 level)) srcPath overlayPath assets := by
  refine ⟨build_filters_ne_nil pick pathExists key level srcPath overlayPath assets,
    ?_, ?_, ?_⟩
  · have h1 : ∀ z : ℚ,
        buildEffectCommandFor pick pathExists "speed" z srcPath overlayPath assets
          = (fun fct : ℚ =>
              (⟨[], [[FTok.ph 0 true, FTok.lit "setpts=",
                      FTok.lit (fmtQ (1 / fct) ++ "*PTS"), FTok.lit "[vout]"],
                     [FTok.ph 0 false,
                      FTok.lit (joinSep ","
                        ((speedTempos fct).map (fun t => "atempo=" ++ fmtQ t))),
                      FTok.lit "[aout]"]]⟩ : EffCmd))
            (max 0.125 (min 4.0 z)) := fun z => rfl
    rw [h1 level, h1 (max 0.125 (min 4.0 level)),
      clamp_idem 0.125 4.0 level (by norm_num)]
  · have h1 : ∀ z : ℚ,
        buildEffectCommandFor pick pathExists "vibrato" z srcPath overlayPath assets
          = (fun fct : ℚ =>
              (⟨[], [[FTok.ph 0 true, FTok.lit "copy[vout]"],
                     [FTok.ph 0 false,
                      FTok.lit ("asetrate=44100*" ++ fmtQ fct
                        ++ ",aresample=44100,atempo="
                        ++ fmtQ (max 0.5 (min 2.0 (1 / fct)))),
                      FTok.lit "[aout]"]]⟩ : EffCmd))
            (max 0.5 (min 2.0 z)) := fun z => rfl
    rw [h1 level, h1 (max 0.5 (min 2.0 level)),
      clamp_idem 0.5 2.0 level (by norm_num)]
  · have h1 : ∀ z : ℚ,
        buildEffectCommandFor pick pathExists "earrape" z srcPath overlayPath assets
          = (fun fct : ℚ =>
              (⟨[], [[FTok.ph 0 true, FTok.lit "eq=contrast=1.1:saturation=1.4[vout]"],
                     [FTok.ph 0 false, FTok.lit "volume=", FTok.lit (fmtQ fct),
                      FTok.lit "[aout]"]]⟩ : EffCmd))
            (max 2.0 (min 30.0 z)) := fun z => rfl
    rw [h1 level, h1 (max 2.0 (min 30.0 level)),
      clamp_idem 2.0 30.0 level (by norm_num)]

/-- Counterexample to C8 as stated: the chorus builder (descriptor
`max_level` 2.0) uses the raw intensity 100 in its delay parameter, so its
output differs from the output at any intensity clamped into
`[m, 2.0]` (all of which coincide with intensity 2); likewise stutter
(`max_level` 3.0) at 100 versus 3. -/
theorem chorus_stutter_unclamped_counterexample :
    buildEffectCommandFor (fun _ => 0) (fun _ => false) "chorus" 100 "clip.mp4"
        none (fun _ => [])
      ≠ buildEffectCommandFor (fun _ => 0) (fun _ => false) "chorus" 2 "clip.mp4"
        none (fun _ => []) ∧
    buildEffectCommandFor (fun _ => 0) (fun _ => false) "stutter" 100 "clip.mp4"
        none (fun _ => [])
      ≠ buildEffectCommandFor (fun _ => 0) (fun _ => false) "stutter" 3 "clip.mp4"
        none (fun _ => []) := by
  have hbc : ∀ z : ℚ,
      buildEffectCommandFor (fun _ => 0) (fun _ => false) "chorus" z "clip.mp4"
          none (fun _ => [])
        = (fun (d : ℤ) (dec : ℚ) =>
            (⟨[], [[FTok.ph 0 true, FTok.lit "copy[vout]"],
                   [FTok.ph 0 false,
                    FTok.lit ("aecho=0.8:0.9:" ++ toString d ++ "|" ++ toString (d * 2)
                      ++ ":" ++ fmtQ dec ++ "|" ++ fmtQ (dec * 0.6)),
                    FTok.lit "[aout]"]]⟩ : EffCmd))
          (pyInt (20 + z * 60)) (max 0.1 (min 0.9 (0.2 + z * 0.2))) := fun z => rfl
  have hbs : ∀ z : ℚ,
      buildEffectCommandFor (fun _ => 0) (fun _ => false) "stutter" z "clip.mp4"
          none (fun _ => [])
        = (fun (lc : ℤ) =>
            (⟨[], [[FTok.ph 0 true, FTok.lit "trim=0:0.15,setpts=PTS-STARTPTS[vst]"],
                   [FTok.lit "[vst]loop=", FTok.lit (toString lc), FTok.lit ":1:0[vstl]"],
                   [FTok.ph 0 false, FTok.lit "atrim=0:0.15,asetpts=PTS-STARTPTS[ast]"],
                   [FTok.lit "[ast]aloop=loop=", FTok.lit (toString lc),
                    FTok.lit ":size=2[astl]"],
                   [FTok.lit "[vstl]scale=iw:ih[vout]"],
                   [FTok.lit "[astl]anull[aout]"]]⟩ : EffCmd))
          (max 2 (pyInt (z * 3))) := fun z => rfl
  have hc1 : pyInt (20 + (100:ℚ) * 60) = 6020 := by norm_num [pyInt]
  have hc2 : pyInt (20 + (2:ℚ) * 60) = 140 := by norm_num [pyInt]
  have hd1 : max (0.1:ℚ) (min 0.9 (0.2 + 100 * 0.2)) = 0.9 := by
    rw [min_def, max_def]; norm_num
  have hd2 : max (0.1:ℚ) (min 0.9 (0.2 + 2 * 0.2)) = 0.6 := by
    rw [min_def, max_def]; norm_num
  have hl1 : max (2:ℤ) (pyInt ((100:ℚ) * 3)) = 300 := by
    rw [max_def]; norm_num [pyInt]
  have hl2 : max (2:ℤ) (pyInt ((3:ℚ) * 3)) = 9 := by
    rw [max_def]; norm_num [pyInt]
  constructor
  · rw [hbc 100, hbc 2, hc1, hc2, hd1, hd2]
    decide
  · rw [hbs 100, hbs 3, hl1, hl2]
    decide

/-- Witness for `builder_total_and_clamps` at a concrete key and an
out-of-range intensity. -/
theorem builder_total_and_clamps_witness :
    (buildEffectCommandFor (fun _ => 0) (fun _ => false) "speed" 100 "clip.mp4"
        none (fun _ => [])).filters ≠ [] ∧
    buildEffectCommandFor (fun _ => 0) (fun _ => false) "speed" 100 "clip.mp4"
        none (fun _ => [])
      = buildEffectCommandFor (fun _ => 0) (fun _ => false) "speed"
          (max 0.125 (min 4.0 100)) "clip.mp4" none (fun _ => []) := by
  have h := builder_total_and_clamps (fun _ => 0) (fun _ => false) "speed" 100
    "clip.mp4" none (fun _ => [])
  exact ⟨h.1, h.2.1⟩

/-- C7: with both a meme image and a meme sound available, the compound
builders declare two extra inputs (image first, sound second) but their
audio mixing fragment references local placeholder 1 — which the compiler
resolves to the image's global slot — and no fragment ever references
placeholder 2, the sound.  (The meme_injection branch's own comment says
the mix should reference `{1a}` or `{2a}` "as appropriate"; the emitted
text is always `{1a}`.) -/
theorem meme_audio_mix_references_first_input :
    (buildEffectCommandFor (fun _ => 0) (fun _ => false) "meme_injection" 1
        "clip.mp4" none
        (fun pool => if pool = "memes" then ["img.png"]
          else if pool = "meme_sounds" then ["snd.wav"] else [])).inputs
      = ["img.png", "snd.wav"] ∧
    (buildEffectCommandFor (fun _ => 0) (fun _ => false) "meme_injection" 1
        "clip.mp4" none
        (fun pool => if pool = "memes" then ["img.png"]
          else if pool = "meme_sounds" then ["snd.wav"] else [])).filters
      = [[FTok.ph 0 true, FTok.ph 1 true, FTok.lit "overlay=W-w-10:H-h-10[vtmp]"],
         [FTok.ph 0 false, FTok.lit "[maina]; ", FTok.ph 1 false,
          FTok.lit "[sfx]; [maina][sfx]amix=inputs=2:duration=first[aout]"],
         [FTok.lit "[vtmp]copy[vout]"]] ∧
    resolveFrag 1 2
      [FTok.ph 0 false, FTok.lit "[maina]; ", FTok.ph 1 false,
       FTok.lit "[sfx]; [maina][sfx]amix=inputs=2:duration=first[aout]"]
      = "[0:a][maina]; [1:a][sfx]; [maina][sfx]amix=inputs=2:duration=first[aout]" ∧
    (∀ f ∈ (buildEffectCommandFor (fun _ => 0) (fun _ => false) "meme_injection" 1
        "clip.mp4" none
        (fun pool => if pool = "memes" then ["img.png"]
          else if pool = "meme_sounds" then ["snd.wav"] else [])).filters,
      FTok.ph 2 true ∉ f ∧ FTok.ph 2 false ∉ f) ∧
    (buildEffectCommandFor (fun _ => 0) (fun _ => false) "memes" 1
        "clip.mp4" none
        (fun pool => if pool = "memes" then ["img.png"]
          else if pool = "meme_sounds" then ["snd.wav"] else [])).inputs
      = ["img.png", "snd.wav"] ∧
    (∀ f ∈ (buildEffectCommandFor (fun _ => 0) (fun _ => false) "memes" 1
        "clip.mp4" none
        (fun pool => if pool = "memes" then ["img.png"]
          else if pool = "meme_sounds" then ["snd.wav"] else [])).filters,
      FTok.ph 2 true ∉ f ∧ FTok.ph 2 false ∉ f) := by
  refine ⟨rfl, rfl, rfl, by decide, rfl, by decide⟩

/-- An asset chosen from a pool is an element of the pool. -/
theorem chooseAsset_mem (pick : List String → Nat) (l : List String) (a : String)
    (h : chooseAsset pick l = some a) : a ∈ l := by
  unfold chooseAsset at h
  split at h
  · exact Option.noConfusion h
  · rw [← Option.some.inj h]
    exact List.get_mem _ _ _

/-- Counterexample to C6 as stated: with an empty pool but an explicit
(and existing) override path supplied, the adverts, errors and images
builders still return the no-op fragment — the override is ignored, so
"no-op only when the pool is empty and no override path is supplied" is
false. -/
theorem override_ignored_counterexample :
    buildEffectCommandFor (fun _ => 0) (fun _ => true) "adverts" 1 "clip.mp4"
        (some "override.png") (fun _ => []) = noopCmd ∧
    buildEffectCommandFor (fun _ => 0) (fun _ => true) "errors" 1 "clip.mp4"
        (some "override.png") (fun _ => []) = noopCmd ∧
    buildEffectCommandFor (fun _ => 0) (fun _ => true) "images" 1 "clip.mp4"
        (some "override.png") (fun _ => []) = noopCmd :=
  ⟨rfl, rfl, rfl⟩

/-- C6 (amended): each overlay-based builder consumes exactly one extra
visual input when its consulted sources yield a non-empty path, and
returns the no-op fragment exactly when they do not.  The consulted
sources are: for adverts/errors/images, only the corresponding asset pool
(the override path is ignored); for rainbow, first the override path
(when non-empty and existing), then the images pool; for explosion_spam,
the images pool or else the override path via Python `or` (without an
existence check). -/
theorem overlay_effects_asset_consumption (pick : List String → Nat)
    (pathExists : String → Bool) (level : ℚ) (srcPath : String)
    (overlayPath : Option String) (assets : String → List String) :
    (∀ key pool,
      (key, pool) ∈ [("adverts", "adverts"), ("errors", "errors"),
        ("images", "images")] →
      (truthy (chooseAsset pick (assets pool)) = false →
        buildEffectCommandFor pick pathExists key level srcPath overlayPath assets
          = noopCmd) ∧
      (∀ a, chooseAsset pick (assets pool) = some a → a ≠ "" →
        (buildEffectCommandFor pick pathExists key level srcPath overlayPath
            assets).inputs = [a] ∧ a ∈ assets pool)) ∧
    (∀ p, overlayPath = some p → p ≠ "" → pathExists p = true →
      (buildEffectCommandFor pick pathExists "rainbow" level srcPath overlayPath
          assets).inputs = [p]) ∧
    ((∀ p, overlayPath = some p → p = "" ∨ pathExists p = false) →
      (truthy (chooseAsset pick (assets "images")) = false →
        buildEffectCommandFor pick pathExists "rainbow" level srcPath overlayPath
          assets = noopCmd) ∧
      (∀ a, chooseAsset pick (assets "images") = some a → a ≠ "" →
        (buildEffectCommandFor pick pathExists "rainbow" level srcPath overlayPath
            assets).inputs = [a] ∧ a ∈ assets "images")) ∧
    (truthy (pyOr (chooseAsset pick (assets "images")) overlayPath) = false →
      buildEffectCommandFor pick pathExists "explosion_spam" level srcPath
        overlayPath assets = noopCmd) ∧
    (∀ a, pyOr (chooseAsset pick (assets "images")) overlayPath = some a →
      a ≠ "" →
      (buildEffectCommandFor pick pathExists "explosion_spam" level srcPath
          overlayPath assets).inputs = [a]
        ∧ (a ∈ assets "images" ∨ overlayPath = some a)) := by
  have hbR : buildEffectCommandFor pick pathExists "rainbow" level srcPath
      overlayPath assets
      = (match overlayPath with
         | some p =>
           if p ≠ "" ∧ pathExists p = true then
             ⟨[p], [[FTok.ph 0 true, FTok.ph 1 true,
                     FTok.lit "overlay=10:10:shortest=1[vout]"],
                    [FTok.ph 0 false, FTok.lit "anull[aout]"]]⟩
           else
             match chooseAsset pick (assets "images") with
             | none => noopCmd
             | some chosen =>
               if chosen = "" then noopCmd
               else ⟨[chosen],
                 [[FTok.ph 0 true, FTok.ph 1 true,
                   FTok.lit "overlay=10:10:shortest=1[vout]"],
                  [FTok.ph 0 false, FTok.lit "anull[aout]"]]⟩
         | none =>
           match chooseAsset pick (assets "images") with
           | none => noopCmd
           | some chosen =>
             if chosen = "" then noopCmd
             else ⟨[chosen],
               [[FTok.ph 0 true, FTok.ph 1 true,
                 FTok.lit "overlay=10:10:shortest=1[vout]"],
                [FTok.ph 0 false, FTok.lit "anull[aout]"]]⟩) := rfl
  have hbA : buildEffectCommandFor pick pathExists "adverts" level srcPath
      overlayPath assets
      = (match chooseAsset pick (assets "adverts") with
         | none => noopCmd
         | some chosen =>
           if chosen = "" then noopCmd
           else ⟨[chosen],
             [[FTok.ph 0 true, FTok.ph 1 true,
               FTok.lit "overlay=enable='between(t,0,3)':x=W-w-10:y=10[vtmp]"],
              [FTok.lit "[vtmp]copy[vout]"],
              [FTok.ph 0 false, FTok.lit "anull[aout]"]]⟩) := rfl
  have hbE : buildEffectCommandFor pick pathExists "errors" level srcPath
      overlayPath assets
      = (match chooseAsset pick (assets "errors") with
         | none => noopCmd
         | some chosen =>
           if chosen = "" then noopCmd
           else ⟨[chosen],
             [[FTok.ph 0 true, FTok.ph 1 true,
               FTok.lit "overlay=enable='gt(mod(t,0.8),0.0)':x=0:y=0[vtmp]"],
              [FTok.lit "[vtmp]copy[vout]"],
              [FTok.ph 0 false, FTok.lit "anull[aout]"]]⟩) := rfl
  have hbI : buildEffectCommandFor pick pathExists "images" level srcPath
      overlayPath assets
      = (match chooseAsset pick (assets "images") with
         | none => noopCmd
         | some chosen =>
           if chosen = "" then noopCmd
           else ⟨[chosen],
             [[FTok.ph 0 true, FTok.ph 1 true,
               FTok.lit "overlay=enable='between(t,1,4)':x=main_w/4:y=main_h/4:alpha='if(lt(t,2),0,1)'[vtmp]"],
              [FTok.lit "[vtmp]copy[vout]"],
              [FTok.ph 0 false, FTok.lit "anull[aout]"]]⟩) := rfl
  have hbX : buildEffectCommandFor pick pathExists "explosion_spam" level srcPath
      overlayPath assets
      = (match pyOr (chooseAsset pick (assets "images")) overlayPath with
         | none => noopCmd
         | some chosen =>
           if chosen = "" then noopCmd
           else ⟨[chosen],
             [[FTok.ph 0 true, FTok.ph 1 true,
               FTok.lit "overlay=enable='between(t,0,0.6)':x=10:y=10[vtmp]"],
              [FTok.lit "[vtmp]copy[vout]"],
              [FTok.ph 0 false, FTok.lit "anull[aout]"]]⟩) := rfl
  refine ⟨?_, ?_, ?_, ?_, ?_⟩
  · intro key pool hmem
    simp only [List.mem_cons, List.mem_singleton, List.not_mem_nil, or_false,
      Prod.mk.injEq] at hmem
    rcases hmem with ⟨rfl, rfl⟩ | ⟨rfl, rfl⟩ | ⟨rfl, rfl⟩
    · refine ⟨?_, ?_⟩
      · intro htr
        rw [hbA]
        rcases hch : chooseAsset pick (assets "adverts") with _ | a
        · rfl
        · rw [hch] at htr
          have ha : a = "" := by simpa [truthy] using htr
          subst ha
          rfl
      · intro a hch hne
        rw [hbA, hch]
        exact ⟨by dsimp only; rw [if_neg hne], chooseAsset_mem pick _ a hch⟩
    · refine ⟨?_, ?_⟩
      · intro htr
        rw [hbE]
        rcases hch : chooseAsset pick (assets "errors") with _ | a
        · rfl
        · rw [hch] at htr
          have ha : a = "" := by simpa [truthy] using htr
          subst ha
          rfl
      · intro a hch hne
        rw [hbE, hch]
        exact ⟨by dsimp only; rw [if_neg hne], chooseAsset_mem pick _ a hch⟩
    · refine ⟨?_, ?_⟩
      · intro htr
        rw [hbI]
        rcases hch : chooseAsset pick (assets "images") with _ | a
        · rfl
        · rw [hch] at htr
          have ha : a = "" := by simpa [truthy] using htr
          subst ha
          rfl
      · intro a hch hne
        rw [hbI, hch]
        exact ⟨by dsimp only; rw [if_neg hne], chooseAsset_mem pick _ a hch⟩
  · intro p hov hne hex
    rw [hbR, hov]
    dsimp only
    rw [if_pos ⟨hne, hex⟩]
  · intro hcond
    have hfall :
        buildEffectCommandFor pick pathExists "rainbow" level srcPath overlayPath
          assets
          = (match chooseAsset pick (assets "images") with
             | none => noopCmd
             | some chosen =>
               if chosen = "" then noopCmd
               else ⟨[chosen],
                 [[FTok.ph 0 true, FTok.ph 1 true,
                   FTok.lit "overlay=10:10:shortest=1[vout]"],
                  [FTok.ph 0 false, FTok.lit "anull[aout]"]]⟩) := by
      rcases hov : overlayPath with _ | p
      · rw [hov] at hbR
        rw [hbR]
      · rw [hov] at hbR
        rw [hbR]
        dsimp only
        rw [if_neg ?_]
        rintro ⟨h1, h2⟩
        rcases hcond p hov with h3 | h3
        · exact h1 h3
        · rw [h2] at h3; exact Bool.noConfusion h3
    refine ⟨?_, ?_⟩
    · intro htr
      rw [hfall]
      rcases hch : chooseAsset pick (assets "images") with _ | a
      · rfl
      · rw [hch] at htr
        have ha : a = "" := by simpa [truthy] using htr
        subst ha
        rfl
    · intro a hch hne
      rw [hfall, hch]
      exact ⟨by dsimp only; rw [if_neg hne], chooseAsset_mem pick _ a hch⟩
  · intro htr
    rw [hbX]
    rcases hch : pyOr (chooseAsset pick (assets "images")) overlayPath with _ | a
    · rfl
    · rw [hch] at htr
      have ha : a = "" := by simpa [truthy] using htr
      subst ha
      rfl
  · intro a hch hne
    rw [hbX, hch]
    refine ⟨by dsimp only; rw [if_neg hne], ?_⟩
    unfold pyOr at hch
    by_cases ht : truthy (chooseAsset pick (assets "images")) = true
    · rw [if_pos ht] at hch
      exact Or.inl (chooseAsset_mem pick _ a hch)
    · rw [if_neg ht] at hch
      exact Or.inr hch

/-- Witness for `overlay_effects_asset_consumption`: errors with a
one-element pool consumes exactly that asset; adverts with an empty pool
is the no-op. -/
theorem overlay_effects_asset_consumption_witness :
    (buildEffectCommandFor (fun _ => 0) (fun _ => false) "errors" 1 "clip.mp4"
        none (fun pool => if pool = "errors" then ["glitch.png"] else [])).inputs
      = ["glitch.png"] ∧
    "glitch.png" ∈ (fun pool : String =>
        if pool = "errors" then ["glitch.png"] else ([] : List String)) "errors" ∧
    buildEffectCommandFor (fun _ => 0) (fun _ => false) "adverts" 1 "clip.mp4"
        none (fun _ => []) = noopCmd := by
  have h := overlay_effects_asset_consumption (fun _ => 0) (fun _ => false) 1
    "clip.mp4" none (fun pool => if pool = "errors" then ["glitch.png"] else [])
  have h2 := (h.1 "errors" "errors" (by simp)).2 "glitch.png" rfl (by decide)
  have h3 := overlay_effects_asset_consumption (fun _ => 0) (fun _ => false) 1
    "clip.mp4" none (fun _ => [])
  exact ⟨h2.1, h2.2, (h3.1 "adverts" "adverts" (by simp)).1 rfl⟩
